import Mathlib

/-!
Shallow embedding of the TDMS reading library (crates tdms-format and tdms)
for verification of its specification.

Bytes are modelled as `Nat` values below 256 in `List Nat`; u32/u64 values as
`Nat`; i32 values as `Int`. Rust slice `split_at` panics when the requested
length exceeds the slice; this is modelled by the dedicated error
`TdmsError.panicSliceBounds`. Rust `u64`/`u32` subtraction wraps in release
builds; the two places where the source can underflow use the explicit
wrapping helpers `u64sub` / `u32sub` (mod 2^64 / 2^32). Strings (UTF-8
validated Rust `String`s) are modelled as lists of Unicode code points.
-/

namespace Tdms

/-- Endianness selector, from enum Endianness in tdms-format/src/segment.rs. -/
inductive Endianness where
  | little
  | big
deriving DecidableEq, Repr

/-- Little-endian value of a byte list (first byte least significant). -/
def leNat : List Nat → Nat
  | [] => 0
  | b :: bs => b + 256 * leNat bs

/-- Embedding of the to_u32 macro: decode a 4-byte buffer per endianness. -/
def toU32 (e : Endianness) (bs : List Nat) : Nat :=
  match e with
  | .little => leNat bs
  | .big => leNat bs.reverse

/-- Embedding of the to_u64 macro (same shape as to_u32, 8-byte buffers). -/
def toU64 (e : Endianness) (bs : List Nat) : Nat :=
  match e with
  | .little => leNat bs
  | .big => leNat bs.reverse

/-- Embedding of the to_i32 macro: the u32 bit pattern reinterpreted as i32. -/
def toI32 (e : Endianness) (bs : List Nat) : Int :=
  let n := toU32 e bs
  if n < 2147483648 then (n : Int) else (n : Int) - 4294967296

/-- Modulus for wrapping 64-bit arithmetic. -/
def U64MOD : Nat := 18446744073709551616

/-- Modulus for wrapping 32-bit arithmetic. -/
def U32MOD : Nat := 4294967296

/-- Wrapping u64 subtraction (release-build semantics of Rust u64 sub). -/
def u64sub (a b : Nat) : Nat := (a % U64MOD + (U64MOD - b % U64MOD)) % U64MOD

/-- Wrapping u64 addition. -/
def u64add (a b : Nat) : Nat := (a + b) % U64MOD

/-- Wrapping u32 subtraction (release-build semantics of Rust u32 sub). -/
def u32sub (a b : Nat) : Nat := (a % U32MOD + (U32MOD - b % U32MOD)) % U32MOD

/-- Decidable equality for Except results, used to evaluate the embedded
parsers on concrete inputs. -/
instance exceptDecEq {ε α : Type} [DecidableEq ε] [DecidableEq α] :
    DecidableEq (Except ε α)
  | .error a, .error b =>
    if h : a = b then .isTrue (by rw [h]) else .isFalse (by intro hc; cases hc; exact h rfl)
  | .error _, .ok _ => .isFalse (by intro hc; cases hc)
  | .ok _, .error _ => .isFalse (by intro hc; cases hc)
  | .ok a, .ok b =>
    if h : a = b then .isTrue (by rw [h]) else .isFalse (by intro hc; cases hc; exact h rfl)

/-- Error cases of enum TdmsError (src/error.rs), plus `panicSliceBounds`
which models the Rust panic raised by slice `split_at` / indexing when the
buffer is shorter than requested. -/
inductive TdmsError where
  | readError
  | intConversionError
  | general (msg : String)
  | invalidSegment
  | groupDoesNotExist
  | channelDoesNotExist
  | endOfSegments
  | invalidDAQmxDataIndex
  | stringConversionError (msg : String)
  | unknownDataType
  | notImplemented (msg : String)
  | panicSliceBounds
deriving DecidableEq, Repr

/-- The TDMS data types of enum TdmsDataType (tdms-format/src/data_type.rs).
The Rust variants carry their byte size as a payload; try_from always supplies
the same constant per variant and get_size merely projects it, so the
embedding keeps the sizes in `TdmsDataType.getSize` only. -/
inductive TdmsDataType where
  | void
  | i8
  | i16
  | i32
  | i64
  | u8
  | u16
  | u32
  | u64
  | singleFloat
  | doubleFloat
  | extendedFloat
  | singleFloatWithUnit
  | doubleFloatWithUnit
  | extendedFloatWithUnit
  | string
  | boolean
  | timeStamp
  | fixedPoint
  | complexSingleFloat
  | complexDoubleFloat
  | daqmxRawData
deriving DecidableEq, Repr

/-- Embedding of TdmsDataType::try_from for the wire i32 code. -/
def TdmsDataType.tryFrom (v : Int) : Except TdmsError TdmsDataType :=
  if v = 0 then .ok .void
  else if v = 1 then .ok .i8
  else if v = 2 then .ok .i16
  else if v = 3 then .ok .i32
  else if v = 4 then .ok .i64
  else if v = 5 then .ok .u8
  else if v = 6 then .ok .u16
  else if v = 7 then .ok .u32
  else if v = 8 then .ok .u64
  else if v = 9 then .ok .singleFloat
  else if v = 10 then .ok .doubleFloat
  else if v = 11 then .ok .extendedFloat
  else if v = 0x19 then .ok .singleFloatWithUnit
  else if v = 0x1a then .ok .doubleFloatWithUnit
  else if v = 0x1b then .ok .extendedFloatWithUnit
  else if v = 0x20 then .ok .string
  else if v = 0x21 then .ok .boolean
  else if v = 0x44 then .ok .timeStamp
  else if v = 0x4f then .ok .fixedPoint
  else if v = 0x08000c then .ok .complexSingleFloat
  else if v = 0x10000d then .ok .complexDoubleFloat
  else if v = -1 then .ok .daqmxRawData
  else .error .unknownDataType

/-- Embedding of TdmsDataType::get_size. -/
def TdmsDataType.getSize : TdmsDataType → Nat
  | .void => 0
  | .i8 => 1
  | .i16 => 2
  | .i32 => 4
  | .i64 => 8
  | .u8 => 1
  | .u16 => 2
  | .u32 => 4
  | .u64 => 8
  | .singleFloat => 4
  | .doubleFloat => 8
  | .extendedFloat => 10
  | .singleFloatWithUnit => 4
  | .doubleFloatWithUnit => 8
  | .extendedFloatWithUnit => 10
  | .string => 0
  | .boolean => 1
  | .timeStamp => 16
  | .fixedPoint => 10
  | .complexSingleFloat => 4
  | .complexDoubleFloat => 8
  | .daqmxRawData => 0

/-- Rust slice split_at: panics (here: an error) when the slice is shorter
than the split point. On success returns (front, rest). -/
def splitAtE (n : Nat) (r : List Nat) : Except TdmsError (List Nat × List Nat) :=
  if n ≤ r.length then .ok (r.take n, r.drop n) else .error .panicSliceBounds

/-- Strict UTF-8 decoding to Unicode code points, mirroring the validation of
Rust String::from_utf8: rejects overlong encodings, surrogates, values above
0x10FFFF, stray continuation bytes and truncated sequences. -/
def utf8Decode : List Nat → Option (List Nat)
  | [] => some []
  | b :: bs =>
    if b < 0x80 then
      (utf8Decode bs).map (fun cs => b :: cs)
    else if b < 0xc2 then none
    else if b < 0xe0 then
      match bs with
      | b1 :: bs1 =>
        if 0x80 ≤ b1 ∧ b1 < 0xc0 then
          (utf8Decode bs1).map (fun cs => ((b - 0xc0) * 64 + (b1 - 0x80)) :: cs)
        else none
      | [] => none
    else if b < 0xf0 then
      match bs with
      | b1 :: b2 :: bs2 =>
        if (0x80 ≤ b1 ∧ b1 < 0xc0) ∧ (0x80 ≤ b2 ∧ b2 < 0xc0)
            ∧ (b = 0xe0 → 0xa0 ≤ b1) ∧ (b = 0xed → b1 < 0xa0) then
          (utf8Decode bs2).map
            (fun cs => ((b - 0xe0) * 4096 + (b1 - 0x80) * 64 + (b2 - 0x80)) :: cs)
        else none
      | _ => none
    else if b < 0xf5 then
      match bs with
      | b1 :: b2 :: b3 :: bs3 =>
        if (0x80 ≤ b1 ∧ b1 < 0xc0) ∧ (0x80 ≤ b2 ∧ b2 < 0xc0) ∧ (0x80 ≤ b3 ∧ b3 < 0xc0)
            ∧ (b = 0xf0 → 0x90 ≤ b1) ∧ (b = 0xf4 → b1 < 0x90) then
          (utf8Decode bs3).map
            (fun cs =>
              ((b - 0xf0) * 262144 + (b1 - 0x80) * 4096 + (b2 - 0x80) * 64 + (b3 - 0x80)) :: cs)
        else none
      | _ => none
    else none

/-- Embedding of struct TDMSValue (tdms-format/src/data_type.rs): the raw
bytes of one typed value, or none for Void. -/
structure TDMSValue where
  dataType : TdmsDataType
  endianness : Endianness
  value : Option (List Nat)
deriving DecidableEq, Repr

/-- Helper for the fixed-width arms of TDMSValue::from_reader: split off n
bytes and store them. -/
def readValueBytes (e : Endianness) (dt : TdmsDataType) (n : Nat) (r : List Nat) :
    Except TdmsError (TDMSValue × List Nat) :=
  match splitAtE n r with
  | .error err => .error err
  | .ok (buf, rest) => .ok ({ dataType := dt, endianness := e, value := some buf }, rest)

/-- Embedding of TDMSValue::from_reader. Each arm reads the fixed byte width
of its data type; String reads a u32 length then that many bytes; Void reads
nothing. -/
def TDMSValue.fromReader (e : Endianness) (dt : TdmsDataType) (r : List Nat) :
    Except TdmsError (TDMSValue × List Nat) :=
  match dt with
  | .void => .ok ({ dataType := dt, endianness := e, value := none }, r)
  | .i8 => readValueBytes e dt 1 r
  | .i16 => readValueBytes e dt 2 r
  | .i32 => readValueBytes e dt 4 r
  | .i64 => readValueBytes e dt 8 r
  | .u8 => readValueBytes e dt 1 r
  | .u16 => readValueBytes e dt 2 r
  | .u32 => readValueBytes e dt 4 r
  | .u64 => readValueBytes e dt 8 r
  | .singleFloat => readValueBytes e dt 4 r
  | .doubleFloat => readValueBytes e dt 8 r
  | .extendedFloat => readValueBytes e dt 10 r
  | .singleFloatWithUnit => readValueBytes e dt 4 r
  | .doubleFloatWithUnit => readValueBytes e dt 8 r
  | .extendedFloatWithUnit => readValueBytes e dt 10 r
  | .string =>
    match splitAtE 4 r with
    | .error err => .error err
    | .ok (buf, rest) =>
      let length := toU32 e buf
      match splitAtE length rest with
      | .error err => .error err
      | .ok (value, rest) =>
        .ok ({ dataType := dt, endianness := e, value := some value }, rest)
  | .boolean => readValueBytes e dt 1 r
  | .timeStamp => readValueBytes e dt 16 r
  | .fixedPoint => readValueBytes e dt 10 r
  | .complexSingleFloat => readValueBytes e dt 8 r
  | .complexDoubleFloat => readValueBytes e dt 16 r
  | .daqmxRawData => readValueBytes e dt 8 r

/-- Embedding of struct MetadataProperty. The name is a decoded string,
kept as Unicode code points. -/
structure MetadataProperty where
  name : List Nat
  dataType : TdmsDataType
  value : TDMSValue
deriving DecidableEq, Repr

/-- Embedding of MetadataProperty::from_reader: u32 name length, name bytes
(UTF-8 validated), i32 data-type code, then the typed value. -/
def MetadataProperty.fromReader (e : Endianness) (r : List Nat) :
    Except TdmsError (MetadataProperty × List Nat) :=
  match splitAtE 4 r with
  | .error err => .error err
  | .ok (buf, rest) =>
    let length := toU32 e buf
    match splitAtE length rest with
    | .error err => .error err
    | .ok (nameBytes, rest) =>
      match utf8Decode nameBytes with
      | none => .error (.stringConversionError "unable to convert metadata property name")
      | some name =>
        match splitAtE 4 rest with
        | .error err => .error err
        | .ok (buf, rest) =>
          match TdmsDataType.tryFrom (toI32 e buf) with
          | .error err => .error err
          | .ok dataType =>
            match TDMSValue.fromReader e dataType rest with
            | .error err => .error err
            | .ok (value, rest) =>
              .ok ({ name := name, dataType := dataType, value := value }, rest)

/-- Embedding of struct RawDataIndex. -/
structure RawDataIndex where
  dataType : TdmsDataType
  arrayDimension : Nat
  numberOfValues : Nat
  numberOfBytes : Option Nat
deriving DecidableEq, Repr

/-- Embedding of RawDataIndex::from_reader: i32 type code, u32 array
dimension, u64 number of values, and for String an extra u64 byte count. -/
def RawDataIndex.fromReader (e : Endianness) (r : List Nat) :
    Except TdmsError (RawDataIndex × List Nat) :=
  match splitAtE 4 r with
  | .error err => .error err
  | .ok (buf, rest) =>
    match TdmsDataType.tryFrom (toI32 e buf) with
    | .error err => .error err
    | .ok dataType =>
      match splitAtE 4 rest with
      | .error err => .error err
      | .ok (buf, rest) =>
        let arrayDimension := toU32 e buf
        match splitAtE 8 rest with
        | .error err => .error err
        | .ok (buf, rest) =>
          let numberOfValues := toU64 e buf
          match dataType with
          | .string =>
            match splitAtE 8 rest with
            | .error err => .error err
            | .ok (buf, rest) =>
              .ok ({ dataType := dataType, arrayDimension := arrayDimension,
                     numberOfValues := numberOfValues,
                     numberOfBytes := some (toU64 e buf) }, rest)
          | _ =>
            .ok ({ dataType := dataType, arrayDimension := arrayDimension,
                   numberOfValues := numberOfValues, numberOfBytes := none }, rest)

/-- Embedding of struct FormatChangingScaler. -/
structure FormatChangingScaler where
  dataType : TdmsDataType
  rawBufferIndex : Nat
  rawByteOffset : Nat
  sampleFormatBitmap : Nat
  scaleId : Nat
deriving DecidableEq, Repr

/-- Embedding of FormatChangingScaler::from_reader: i32 type then four u32
fields. -/
def FormatChangingScaler.fromReader (e : Endianness) (r : List Nat) :
    Except TdmsError (FormatChangingScaler × List Nat) :=
  match splitAtE 4 r with
  | .error err => .error err
  | .ok (buf, rest) =>
    match TdmsDataType.tryFrom (toI32 e buf) with
    | .error err => .error err
    | .ok dataType =>
      match splitAtE 4 rest with
      | .error err => .error err
      | .ok (buf, rest) =>
        let rawBufferIndex := toU32 e buf
        match splitAtE 4 rest with
        | .error err => .error err
        | .ok (buf, rest) =>
          let rawByteOffset := toU32 e buf
          match splitAtE 4 rest with
          | .error err => .error err
          | .ok (buf, rest) =>
            let sampleFormatBitmap := toU32 e buf
            match splitAtE 4 rest with
            | .error err => .error err
            | .ok (buf, rest) =>
              .ok ({ dataType := dataType, rawBufferIndex := rawBufferIndex,
                     rawByteOffset := rawByteOffset,
                     sampleFormatBitmap := sampleFormatBitmap,
                     scaleId := toU32 e buf }, rest)

/-- Embedding of struct DAQmxDataIndex. -/
structure DAQmxDataIndex where
  dataType : TdmsDataType
  arrayDimension : Nat
  numberOfValues : Nat
  formatChangingSize : Option Nat
  formatChangingVec : Option (List FormatChangingScaler)
  bufferVecSize : Nat
  buffers : List Nat
deriving DecidableEq, Repr

/-- Scaler-consumption loop of DAQmxDataIndex::from_reader: parses n
FormatChangingScaler records into a vector. The source builds this vector
and then drops it. -/
def consumeScalers (e : Endianness) : Nat → List Nat →
    Except TdmsError (List FormatChangingScaler × List Nat)
  | 0, r => .ok ([], r)
  | n + 1, r =>
    match FormatChangingScaler.fromReader e r with
    | .error err => .error err
    | .ok (s, rest) =>
      match consumeScalers e n rest with
      | .error err => .error err
      | .ok (vec, rest) => .ok (s :: vec, rest)

/-- Buffer-vector loop of DAQmxDataIndex::from_reader: reads n u32 element
counts. -/
def readBuffers (e : Endianness) : Nat → List Nat →
    Except TdmsError (List Nat × List Nat)
  | 0, r => .ok ([], r)
  | n + 1, r =>
    match splitAtE 4 r with
    | .error err => .error err
    | .ok (buf, rest) =>
      match readBuffers e n rest with
      | .error err => .error err
      | .ok (buffers, rest) => .ok (toU32 e buf :: buffers, rest)

/-- Embedding of DAQmxDataIndex::from_reader. The locals format_changing_size
and format_changing_vec of the source are immutable None bindings; the scaler
vector built in the format-changing branch is consumed from the input and
dropped. -/
def DAQmxDataIndex.fromReader (e : Endianness) (r : List Nat) (isFormatChanging : Bool) :
    Except TdmsError (DAQmxDataIndex × List Nat) :=
  match splitAtE 4 r with
  | .error err => .error err
  | .ok (buf, rest) =>
    if toU32 e buf ≠ 0xffffffff then .error .invalidDAQmxDataIndex
    else
      match splitAtE 4 rest with
      | .error err => .error err
      | .ok (buf, rest) =>
        let arrayDimension := toU32 e buf
        match splitAtE 8 rest with
        | .error err => .error err
        | .ok (buf, rest) =>
          let numberOfValues := toU64 e buf
          let formatChangingSize : Option Nat := none
          let formatChangingVec : Option (List FormatChangingScaler) := none
          let afterScalers : Except TdmsError (List Nat) :=
            if isFormatChanging then
              match splitAtE 4 rest with
              | .error err => .error err
              | .ok (buf, r1) =>
                match consumeScalers e (toU32 e buf) r1 with
                | .error err => .error err
                | .ok (_, rest) => .ok rest
            else .ok rest
          match afterScalers with
          | .error err => .error err
          | .ok r =>
            match splitAtE 4 r with
            | .error err => .error err
            | .ok (buf, rest) =>
              let bufferVecSize := toU32 e buf
              match readBuffers e bufferVecSize rest with
              | .error err => .error err
              | .ok (buffers, rest) =>
                .ok ({ dataType := .daqmxRawData, arrayDimension := arrayDimension,
                       numberOfValues := numberOfValues,
                       formatChangingSize := formatChangingSize,
                       formatChangingVec := formatChangingVec,
                       bufferVecSize := bufferVecSize, buffers := buffers }, rest)

/-- Embedding of struct MetadataObject. The path is kept as decoded Unicode
code points. -/
structure MetadataObject where
  objectPath : List Nat
  rawDataIndex : Option RawDataIndex
  daqmxDataIndex : Option DAQmxDataIndex
  properties : List MetadataProperty
deriving DecidableEq, Repr

/-- The raw-data-index dispatch of Metadata::from_reader
(tdms-format/src/segment.rs lines 536-556): the u32 sentinel has already
been split off the buffer; the index that follows, if any, is parsed from
the remaining bytes r. -/
def parseIndices (e : Endianness) (firstByte : Nat) (r : List Nat) :
    Except TdmsError (Option RawDataIndex × Option DAQmxDataIndex × List Nat) :=
  if firstByte = 0x69120000 ∨ firstByte = 0x00001269 then
    match DAQmxDataIndex.fromReader e r true with
    | .error err => .error err
    | .ok (index, rest) => .ok (none, some index, rest)
  else if firstByte = 0x69130000 ∨ firstByte = 0x0000126a ∨ firstByte = 0x00001369 then
    match DAQmxDataIndex.fromReader e r false with
    | .error err => .error err
    | .ok (index, rest) => .ok (none, some index, rest)
  else if firstByte ≠ 0xffffffff ∧ firstByte ≠ 0x0000000 then
    match RawDataIndex.fromReader e r with
    | .error err => .error err
    | .ok (index, rest) => .ok (some index, none, rest)
  else .ok (none, none, r)

/-- Property loop of Metadata::from_reader: parse n properties in order. -/
def parseProperties (e : Endianness) : Nat → List Nat →
    Except TdmsError (List MetadataProperty × List Nat)
  | 0, r => .ok ([], r)
  | n + 1, r =>
    match MetadataProperty.fromReader e r with
    | .error err => .error err
    | .ok (p, rest) =>
      match parseProperties e n rest with
      | .error err => .error err
      | .ok (ps, rest) => .ok (p :: ps, rest)

/-- One iteration of the object loop of Metadata::from_reader: u32 path
length, path bytes (UTF-8 validated), u32 sentinel, optional raw-data or
DAQmx index, u32 property count, properties. -/
def parseObject (e : Endianness) (r : List Nat) :
    Except TdmsError (MetadataObject × List Nat) :=
  match splitAtE 4 r with
  | .error err => .error err
  | .ok (buf, rest) =>
    let length := toU32 e buf
    match splitAtE length rest with
    | .error err => .error err
    | .ok (pathBytes, rest) =>
      match utf8Decode pathBytes with
      | none => .error (.stringConversionError "unable to convert object path")
      | some objectPath =>
        match splitAtE 4 rest with
        | .error err => .error err
        | .ok (buf, rest) =>
          let firstByte := toU32 e buf
          match parseIndices e firstByte rest with
          | .error err => .error err
          | .ok (rawDataIndex, daqmxDataIndex, rest) =>
            match splitAtE 4 rest with
            | .error err => .error err
            | .ok (buf, rest) =>
              let numOfProperties := toU32 e buf
              match parseProperties e numOfProperties rest with
              | .error err => .error err
              | .ok (properties, rest) =>
                .ok ({ objectPath := objectPath, rawDataIndex := rawDataIndex,
                       daqmxDataIndex := daqmxDataIndex,
                       properties := properties }, rest)

/-- Embedding of struct Metadata. -/
structure Metadata where
  numberOfObjects : Nat
  objects : List MetadataObject
deriving DecidableEq, Repr

/-- Object loop of Metadata::from_reader. -/
def parseObjects (e : Endianness) : Nat → List Nat →
    Except TdmsError (List MetadataObject × List Nat)
  | 0, r => .ok ([], r)
  | n + 1, r =>
    match parseObject e r with
    | .error err => .error err
    | .ok (obj, rest) =>
      match parseObjects e n rest with
      | .error err => .error err
      | .ok (objs, rest) => .ok (obj :: objs, rest)

/-- Embedding of Metadata::from_reader: u32 object count followed by that
many objects. -/
def Metadata.fromReader (e : Endianness) (r : List Nat) :
    Except TdmsError (Metadata × List Nat) :=
  match splitAtE 4 r with
  | .error err => .error err
  | .ok (buf, rest) =>
    let numberOfObjects := toU32 e buf
    match parseObjects e numberOfObjects rest with
    | .error err => .error err
    | .ok (objects, rest) =>
      .ok ({ numberOfObjects := numberOfObjects, objects := objects }, rest)

/-- Table-of-Contents bitmasks (tdms-format/src/segment.rs). -/
def kTocMetaData : Nat := 2

/-- ToC bit: new object list. -/
def kTocNewObjList : Nat := 4

/-- ToC bit: raw data present. -/
def kTocRawData : Nat := 8

/-- ToC bit: interleaved data layout. -/
def kTocInterleavedData : Nat := 32

/-- ToC bit: segment body is big-endian. -/
def kTocBigEndian : Nat := 64

/-- ToC bit: DAQmx raw data. -/
def kTocDaqmxRawData : Nat := 128

/-- Embedding of struct LeadIn: the parsed 28-byte segment lead-in. -/
structure LeadIn where
  tag : List Nat
  tableOfContents : Nat
  versionNumber : Nat
  nextSegmentOffset : Nat
  rawDataOffset : Nat
deriving DecidableEq, Repr

/-- Embedding of LeadIn::from_bytes (tdms-format/src/segment.rs). The Rust
code compares hex::encode(tag) with "5444536d", which for byte values is the
same as comparing the four tag bytes with 0x54 0x44 0x53 0x6d. Slicing a
buffer shorter than the accessed range panics, modelled by splitAtE. -/
def LeadIn.fromBytes (r : List Nat) : Except TdmsError LeadIn :=
  match splitAtE 4 r with
  | .error err => .error err
  | .ok (tag, _) =>
    if tag ≠ [0x54, 0x44, 0x53, 0x6d] then .error .invalidSegment
    else
      match splitAtE 8 r with
      | .error err => .error err
      | .ok (front8, _) =>
        let tableOfContents := leNat (front8.drop 4)
        let bigEndian := tableOfContents &&& kTocBigEndian ≠ 0
        match splitAtE 12 r with
        | .error err => .error err
        | .ok (front12, _) =>
          let version := front12.drop 8
          let versionNumber := if bigEndian then leNat version.reverse else leNat version
          match splitAtE 20 r with
          | .error err => .error err
          | .ok (front20, _) =>
            let offset := (front20.drop 12).take 8
            let nextSegmentOffset := if bigEndian then leNat offset.reverse else leNat offset
            match splitAtE 28 r with
            | .error err => .error err
            | .ok (front28, _) =>
              let rawOffset := (front28.drop 20).take 8
              let rawDataOffset := if bigEndian then leNat rawOffset.reverse else leNat rawOffset
              .ok { tag := tag, tableOfContents := tableOfContents,
                    versionNumber := versionNumber,
                    nextSegmentOffset := nextSegmentOffset,
                    rawDataOffset := rawDataOffset }

/-- Rust str::split on "/" over code points: pieces between slashes,
including empty pieces. -/
def splitOnSlash : List Nat → List (List Nat)
  | [] => [[]]
  | c :: cs =>
    if c = 47 then [] :: splitOnSlash cs
    else
      match splitOnSlash cs with
      | [] => [[c]]
      | p :: ps => (c :: p) :: ps

/-- Embedding of rem_quotes (tdms-format/src/segment.rs): remove one leading
and one trailing single-quote code point (39), each checked against the
original string. -/
def remQuotes (l : List Nat) : List Nat :=
  let l1 := if l.head? = some 39 then l.tail else l
  if l.getLast? = some 39 then l1.dropLast else l1

/-- Embedding of struct ChannelPositions: absolute [start, end) byte
offsets, as a pair. -/
abbrev ChannelPositions := Nat × Nat

/-- Embedding of struct Channel. -/
structure Channel where
  fullPath : List Nat
  groupPath : List Nat
  path : List Nat
  dataType : TdmsDataType
  rawDataIndex : Option RawDataIndex
  daqmxDataIndex : Option DAQmxDataIndex
  properties : List MetadataProperty
  chunkPositions : List ChannelPositions
  stringOffsetPos : Option ChannelPositions
  interleavedOffset : Nat
deriving DecidableEq, Repr

/-- IndexMap lookup: first entry with the given key. -/
def imGet {β : Type} (k : List Nat) : List (List Nat × β) → Option β
  | [] => none
  | (k1, v) :: rest => if k1 = k then some v else imGet k rest

/-- IndexMap insert: replace the value in place when the key exists,
otherwise append, preserving insertion order. -/
def imInsert {β : Type} (k : List Nat) (v : β) : List (List Nat × β) → List (List Nat × β)
  | [] => [(k, v)]
  | (k1, v1) :: rest =>
    if k1 = k then (k1, v) :: rest else (k1, v1) :: imInsert k v rest

/-- The segment's group map: group path to optional channel map, both in
insertion order (IndexMap in the source). -/
abbrev Groups := List (List Nat × Option (List (List Nat × Channel)))

/-- Embedding of struct Segment. -/
structure Segment where
  leadIn : LeadIn
  metadata : Option Metadata
  startPos : Nat
  endPos : Nat
  groups : Groups
  chunkSize : Nat
deriving DecidableEq, Repr

/-- Embedding of Segment::get_channel. -/
def Segment.getChannel (s : Segment) (groupPath path : List Nat) : Option Channel :=
  match imGet groupPath s.groups with
  | none => none
  | some none => none
  | some (some channels) => imGet path channels

/-- State threaded through the metadata-object loop of Segment::new:
the groups built so far, the running raw-data position, the running
interleaved row size, the running chunk size, and the (possibly mutated)
objects in order. -/
structure WalkState where
  groups : Groups
  dataPos : Nat
  interleavedTotalSize : Nat
  chunkSize : Nat
  objsAcc : List MetadataObject
deriving DecidableEq, Repr

/-- Chunk-geometry computation for one channel object inside Segment::new
(tdms-format/src/segment.rs lines 167-205): returns
(startPos, endPos, stringOffsetPos, new dataPos, new chunkSize). -/
def channelGeometry (interleaved : Bool) (dataPos chunkSize : Nat)
    (rawDataIndex : Option RawDataIndex) :
    Nat × Nat × Option ChannelPositions × Nat × Nat :=
  match rawDataIndex with
  | none => (dataPos, 0, none, dataPos, chunkSize)
  | some index =>
    let typeSize := TdmsDataType.getSize index.dataType
    if interleaved then (dataPos, 0, none, dataPos, chunkSize)
    else if index.dataType = .string ∧ index.numberOfBytes.isSome then
      let startPos := dataPos + index.numberOfValues * 4
      let stringOffsetPos := some (dataPos, dataPos + index.numberOfValues * 4)
      let dataPos := dataPos + index.numberOfBytes.getD 0
      (startPos, dataPos, stringOffsetPos, dataPos, chunkSize + index.numberOfBytes.getD 0)
    else
      let span := typeSize * index.arrayDimension * index.numberOfValues
      (dataPos, dataPos + span, none, dataPos + span, chunkSize + span)

/-- Descriptor-inheritance block of Segment::new (tdms-format/src/segment.rs
lines 123-144): when the object carries neither index and the previous
segment has a channel for the same (group, channel), copy both descriptors
from it. -/
def inheritIndices (previousSegment : Option Segment) (paths : List (List Nat))
    (obj : MetadataObject) : MetadataObject :=
  match previousSegment with
  | none => obj
  | some prev =>
    if obj.rawDataIndex = none ∧ obj.daqmxDataIndex = none then
      match prev.getChannel (remQuotes (paths.getD 1 [])) (remQuotes (paths.getD 2 [])) with
      | none => obj
      | some c =>
        { obj with rawDataIndex := c.rawDataIndex, daqmxDataIndex := c.daqmxDataIndex }
    else obj

/-- One iteration of the metadata-object loop of Segment::new
(tdms-format/src/segment.rs lines 114-244): descriptor inheritance from the
previous segment, data-type resolution, group registration and channel
construction with its first chunk position. -/
def processObject (tableOfContents : Nat) (previousSegment : Option Segment)
    (st : WalkState) (obj : MetadataObject) : WalkState :=
  let paths := splitOnSlash obj.objectPath
  if obj.objectPath = [47] ∨ paths.length < 3 then
    { st with objsAcc := st.objsAcc ++ [obj] }
  else
    let obj := inheritIndices previousSegment paths obj
    let dataType :=
      match obj.daqmxDataIndex with
      | some index => index.dataType
      | none =>
        match obj.rawDataIndex with
        | some index => index.dataType
        | none => TdmsDataType.void
    let interleavedTotalSize := st.interleavedTotalSize + TdmsDataType.getSize dataType
    let groupKey := remQuotes (paths.getD 1 [])
    let groups :=
      if 2 ≤ paths.length ∧ paths.getD 1 [] ≠ [] then
        if (imGet groupKey st.groups).isSome then st.groups
        else imInsert groupKey none st.groups
      else st.groups
    if 3 ≤ paths.length ∧ paths.getD 2 [] ≠ [] then
      let interleaved := tableOfContents &&& kTocInterleavedData ≠ 0
      let (startPos, endPos, stringOffsetPos, dataPos, chunkSize) :=
        channelGeometry interleaved st.dataPos st.chunkSize obj.rawDataIndex
      let channel : Channel :=
        { fullPath := obj.objectPath, groupPath := groupKey,
          path := remQuotes (paths.getD 2 []), dataType := dataType,
          rawDataIndex := obj.rawDataIndex, daqmxDataIndex := obj.daqmxDataIndex,
          properties := obj.properties, chunkPositions := [(startPos, endPos)],
          stringOffsetPos := stringOffsetPos, interleavedOffset := 0 }
      let chanKey := remQuotes (paths.getD 2 [])
      let groups :=
        match imGet groupKey groups with
        | some (some m) => imInsert groupKey (some (imInsert chanKey channel m)) groups
        | some none => imInsert groupKey (some [(chanKey, channel)]) groups
        | none => groups
      { groups := groups, dataPos := dataPos,
        interleavedTotalSize := interleavedTotalSize, chunkSize := chunkSize,
        objsAcc := st.objsAcc ++ [obj] }
    else
      { st with
        groups := groups, interleavedTotalSize := interleavedTotalSize,
        objsAcc := st.objsAcc ++ [obj] }

/-- The whole metadata-object loop of Segment::new, starting from the
initial state (dataPos = lead_in.raw_data_offset, everything else empty). -/
def walkObjects (tableOfContents : Nat) (previousSegment : Option Segment)
    (rawDataOffset : Nat) (objs : List MetadataObject) : WalkState :=
  objs.foldl (processObject tableOfContents previousSegment)
    { groups := [], dataPos := rawDataOffset, interleavedTotalSize := 0,
      chunkSize := 0, objsAcc := [] }

/-- Interleaved fix-up of Segment::new (tdms-format/src/segment.rs lines
249-273) over one channel map, threading the running interleaved_total_size.
Note that the source keeps adding each channel's size to
interleaved_total_size inside this loop, and that the end-position
expression chunk_size - interleaved_offset + interleaved_total_size is
wrapping u64 arithmetic. -/
def fixupChannels (chunkSize : Nat) :
    Nat → List (List Nat × Channel) → List (List Nat × Channel) × Nat
  | its, [] => ([], its)
  | its, (k, c) :: rest =>
    let size := TdmsDataType.getSize c.dataType
    let c :=
      { c with
        interleavedOffset := its - size,
        chunkPositions :=
          match c.chunkPositions with
          | [] => []
          | p :: ps => (p.1, u64add (u64sub chunkSize (its - size)) its) :: ps }
    let (rest, its) := fixupChannels chunkSize (its + size) rest
    ((k, c) :: rest, its)

/-- Interleaved fix-up over the whole group map. -/
def fixupGroups (chunkSize : Nat) : Nat → Groups → Groups × Nat
  | its, [] => ([], its)
  | its, (g, none) :: rest =>
    let (rest, its) := fixupGroups chunkSize its rest
    ((g, none) :: rest, its)
  | its, (g, some channels) :: rest =>
    let (channels, its) := fixupChannels chunkSize its channels
    let (rest, its) := fixupGroups chunkSize its rest
    ((g, some channels) :: rest, its)

/-- Chunk-replication loop of Segment::new for one channel
(tdms-format/src/segment.rs lines 285-312): repeatedly append the previous
chunk translated by chunk_size, clamping the end to segment_end_pos, until
the translated start passes segment_end_pos. The source loop has no other
exit; the fuel argument makes the embedding total, with result none when the
source loop has not terminated within the given fuel. -/
def replLoop (chunkSize segmentEndPos : Nat) :
    Nat → Nat → List ChannelPositions → Option (Except TdmsError (List ChannelPositions))
  | 0, _, _ => none
  | fuel + 1, i, ps =>
    match ps.get? i with
    | none => some (.error (.general "unable to fetch previous chunk positions"))
    | some (prevStart, prevEnd) =>
      let newStart := prevStart + chunkSize
      let newEnd := prevEnd + chunkSize
      if segmentEndPos < newStart then some (.ok ps)
      else
        let newEnd := if segmentEndPos < newEnd then segmentEndPos else newEnd
        replLoop chunkSize segmentEndPos fuel (i + 1) (ps ++ [(newStart, newEnd)])

/-- Chunk replication for one channel: DAQmxRawData channels are skipped
(they keep only their first chunk position). -/
def replicateChannel (fuel chunkSize segmentEndPos : Nat) (c : Channel) :
    Option (Except TdmsError Channel) :=
  if c.dataType = .daqmxRawData then some (.ok c)
  else
    match replLoop chunkSize segmentEndPos fuel 0 c.chunkPositions with
    | none => none
    | some (.error err) => some (.error err)
    | some (.ok ps) => some (.ok { c with chunkPositions := ps })

/-- Chunk replication over one channel map. -/
def replicateChannels (fuel chunkSize segmentEndPos : Nat) :
    List (List Nat × Channel) → Option (Except TdmsError (List (List Nat × Channel)))
  | [] => some (.ok [])
  | (k, c) :: rest =>
    match replicateChannel fuel chunkSize segmentEndPos c with
    | none => none
    | some (.error err) => some (.error err)
    | some (.ok c) =>
      match replicateChannels fuel chunkSize segmentEndPos rest with
      | none => none
      | some (.error err) => some (.error err)
      | some (.ok rest) => some (.ok ((k, c) :: rest))

/-- Chunk replication over the whole group map. -/
def replicateGroups (fuel chunkSize segmentEndPos : Nat) :
    Groups → Option (Except TdmsError Groups)
  | [] => some (.ok [])
  | (g, none) :: rest =>
    match replicateGroups fuel chunkSize segmentEndPos rest with
    | none => none
    | some (.error err) => some (.error err)
    | some (.ok rest) => some (.ok ((g, none) :: rest))
  | (g, some channels) :: rest =>
    match replicateChannels fuel chunkSize segmentEndPos channels with
    | none => none
    | some (.error err) => some (.error err)
    | some (.ok channels) =>
      match replicateGroups fuel chunkSize segmentEndPos rest with
      | none => none
      | some (.error err) => some (.error err)
      | some (.ok rest) => some (.ok ((g, some channels) :: rest))

/-- Embedding of Segment::new (tdms-format/src/segment.rs): parse the
metadata buffer, walk the objects (inheritance, geometry, groups), apply the
interleaved fix-up when kInterleavedData is set, then replicate chunk
positions. Result none means the replication loop of the source has not
terminated within the given fuel. -/
def Segment.new (fuel : Nat) (r : List Nat) (leadIn : LeadIn)
    (segmentStartPos : Nat) (previousSegment : Option Segment) :
    Option (Except TdmsError Segment) :=
  let segmentEndPos := segmentStartPos + leadIn.nextSegmentOffset
  let endianness : Endianness :=
    if leadIn.tableOfContents &&& kTocBigEndian ≠ 0 then .big else .little
  match Metadata.fromReader endianness r with
  | .error err => some (.error err)
  | .ok (md, _) =>
    let st := walkObjects leadIn.tableOfContents previousSegment leadIn.rawDataOffset md.objects
    let groups :=
      if leadIn.tableOfContents &&& kTocInterleavedData ≠ 0 then
        (fixupGroups st.chunkSize st.interleavedTotalSize st.groups).1
      else st.groups
    match replicateGroups fuel st.chunkSize segmentEndPos groups with
    | none => none
    | some (.error err) => some (.error err)
    | some (.ok groups) =>
      some (.ok { leadIn := leadIn,
                  metadata := some { numberOfObjects := md.numberOfObjects,
                                     objects := st.objsAcc },
                  startPos := segmentStartPos, endPos := segmentEndPos,
                  groups := groups, chunkSize := st.chunkSize })

/-- Termination predicate of the per-channel chunk-replication loop: the
derivation tree witnesses that the loop, started at index i over the
position list ps, reaches one of its two exits (missing previous position,
or translated start past segment_end_pos) after finitely many iterations. -/
inductive ReplTerm (chunkSize segmentEndPos : Nat) : Nat → List ChannelPositions → Prop
  | missing (i : Nat) (ps : List ChannelPositions) :
      ps.get? i = none → ReplTerm chunkSize segmentEndPos i ps
  | stop (i : Nat) (ps : List ChannelPositions) (p : ChannelPositions) :
      ps.get? i = some p → segmentEndPos < p.1 + chunkSize →
      ReplTerm chunkSize segmentEndPos i ps
  | step (i : Nat) (ps : List ChannelPositions) (p : ChannelPositions) :
      ps.get? i = some p → p.1 + chunkSize ≤ segmentEndPos →
      ReplTerm chunkSize segmentEndPos (i + 1)
        (ps ++ [(p.1 + chunkSize,
                 if segmentEndPos < p.2 + chunkSize then segmentEndPos
                 else p.2 + chunkSize)]) →
      ReplTerm chunkSize segmentEndPos i ps

/-- Embedding of the iterator's buffered reader: the file bytes and the
current cursor position. -/
structure Reader where
  data : List Nat
  pos : Nat
deriving DecidableEq, Repr

/-- Embedding of Read::read_exact over the modelled reader: reads exactly n
bytes at the cursor or fails with an unexpected-end-of-file error, leaving
the reader unchanged on failure. -/
def Reader.readExact (r : Reader) (n : Nat) : Except TdmsError (List Nat) × Reader :=
  if r.pos + n ≤ r.data.length then
    (.ok ((r.data.drop r.pos).take n), { r with pos := r.pos + n })
  else (.error .readError, r)

/-- Embedding of Seek::seek(SeekFrom::Start p). -/
def Reader.seekStart (r : Reader) (p : Nat) : Reader := { r with pos := p }

/-- Embedding of struct ChannelDataIter (tdms/src/channel_iter.rs): the
RefCell fields become plain state. -/
structure IterState where
  channel : Channel
  currentPos : ChannelPositions
  segments : List Segment
  reader : Reader
  currentSegmentIndex : Nat
  currentSegmentOffsets : List Nat
  stringOffsets : List Nat
  stringOffsetIndex : Nat
  stringPreviousOffset : Nat
  offsetIndex : Nat
deriving DecidableEq, Repr

/-- Embedding of Segment::endianess. -/
def Segment.endianess (s : Segment) : Endianness :=
  if s.leadIn.tableOfContents &&& kTocBigEndian ≠ 0 then .big else .little

/-- Embedding of Segment::has_interleaved_data. -/
def Segment.hasInterleavedData (s : Segment) : Bool :=
  s.leadIn.tableOfContents &&& kTocInterleavedData ≠ 0

/-- The read loop of ChannelDataIter::set_string_offsets: while the reader
cursor is before the end of the string-offset range, read one u32 in the
endianness of segment 0 and push it. State reached before a failure is
kept, as with the source's incremental RefCell pushes. -/
def readOffsetsLoop (segments : List Segment) (limit : Nat)
    (r : Reader) (acc : List Nat) : (Except TdmsError Unit) × Reader × List Nat :=
  if h : r.pos < limit then
    match hr : r.readExact 4 with
    | (.error err, r) => (.error err, r, acc)
    | (.ok buf, r1) =>
      match segments.get? 0 with
      | none => (.error .endOfSegments, r1, acc)
      | some s0 =>
        have hpos : r1.pos = r.pos + 4 := by
          unfold Reader.readExact at hr
          split at hr
          · simp at hr
            rw [← hr.2]
          · simp at hr
        readOffsetsLoop segments limit r1 (acc ++ [toU32 s0.endianess buf])
  else (.ok (), r, acc)
termination_by limit - r.pos
decreasing_by simp only [hpos]; omega

/-- Embedding of ChannelDataIter::set_string_offsets: clear the offset table
and its index, then, when the channel has a string-offset range, seek to its
start and read u32 offsets until its end. -/
def setStringOffsets (st : IterState) : (Except TdmsError Unit) × IterState :=
  let st := { st with stringOffsets := [], stringOffsetIndex := 0 }
  match st.channel.stringOffsetPos with
  | none => (.ok (), st)
  | some offsetPos =>
    let r := st.reader.seekStart offsetPos.1
    match readOffsetsLoop st.segments offsetPos.2 r [] with
    | (.error err, r, acc) => (.error err, { st with reader := r, stringOffsets := acc })
    | (.ok _, r, acc) => (.ok (), { st with reader := r, stringOffsets := acc })

/-- The chunk-scan of ChannelDataIter::current_positions: the first chunk
range whose end lies beyond the stream position. -/
def findChunk (streamPos : Nat) : List ChannelPositions → Option ChannelPositions
  | [] => none
  | p :: ps => if p.2 ≤ streamPos then findChunk streamPos ps else some p

/-- Embedding of ChannelDataIter::current_positions (tdms/src/channel_iter.rs
lines 117-182). RefCell::take on current_segment_index leaves the default 0
behind, which is restored to index + 1 only on the segment-advance path; all
side effects performed before an error are kept. -/
def currentPositions (st : IterState) (streamPos : Nat) :
    (Except TdmsError Unit) × IterState :=
  if streamPos < st.currentPos.2 then (.ok (), st)
  else
    match findChunk streamPos st.channel.chunkPositions with
    | some p => (.ok (), { st with currentPos := p })
    | none =>
      let index := st.currentSegmentIndex
      let st := { st with currentSegmentIndex := 0 }
      match st.segments.get? index with
      | none => (.error .endOfSegments, st)
      | some seg =>
        let (segResult, st) :=
          if streamPos ≠ seg.startPos then
            let st := { st with reader := st.reader.seekStart seg.endPos }
            match st.segments.get? (index + 1) with
            | none => (none, st)
            | some s2 => (some s2, { st with currentSegmentIndex := index + 1 })
          else (some seg, st)
        match segResult with
        | none => (.error .endOfSegments, st)
        | some seg =>
          match imGet st.channel.groupPath seg.groups with
          | none => (.error .groupDoesNotExist, st)
          | some none => (.error .channelDoesNotExist, st)
          | some (some channelMap) =>
            match imGet st.channel.path channelMap with
            | none => (.error .channelDoesNotExist, st)
            | some channel =>
              let st := { st with channel := channel }
              match setStringOffsets st with
              | (.error err, st) => (.error err, st)
              | (.ok _, st) =>
                match findChunk streamPos st.channel.chunkPositions with
                | some p => (.ok (), { st with currentPos := p })
                | none => (.error .endOfSegments, st)

/-- Embedding of ChannelDataIter::advance_reader_to_next (tdms/src/
channel_iter.rs lines 187-262). The source recurses without a decreasing
measure (and in interleaved segments it recurses unconditionally), so the
embedding is fuel-indexed: none means the source has not returned within
the given fuel. The final state accompanies both success and error. -/
def advance : Nat → IterState → Option ((Except TdmsError Segment) × IterState)
  | 0, _ => none
  | fuel + 1, st =>
    let streamPos := st.reader.pos
    match currentPositions st streamPos with
    | (.error err, st) => some (.error err, st)
    | (.ok _, st) =>
      let startPos := st.currentPos.1
      let endPos := st.currentPos.2
      let index := st.currentSegmentIndex
      match st.segments.get? index with
      | none => some (.error .endOfSegments, st)
      | some seg =>
        let (streamPos, st) :=
          if streamPos < seg.startPos + seg.leadIn.rawDataOffset ∨ streamPos < startPos then
            (startPos, { st with reader := st.reader.seekStart startPos })
          else (streamPos, st)
        if seg.endPos ≤ streamPos then
          let st := { st with reader := st.reader.seekStart seg.endPos }
          match st.segments.get? (index + 1) with
          | none => some (.error .endOfSegments, st)
          | some seg2 =>
            let st := { st with currentSegmentIndex := index + 1 }
            match imGet st.channel.groupPath seg2.groups with
            | none => some (.error .groupDoesNotExist, st)
            | some none => some (.error .channelDoesNotExist, st)
            | some (some channelMap) =>
              match imGet st.channel.path channelMap with
              | none => some (.error .channelDoesNotExist, st)
              | some channel =>
                let st := { st with channel := channel }
                match setStringOffsets st with
                | (.error err, st) => some (.error err, st)
                | (.ok _, st) => advance fuel st
        else if seg.hasInterleavedData then
          let st :=
            { st with reader := st.reader.seekStart (st.reader.pos + st.channel.interleavedOffset) }
          advance fuel st
        else if startPos ≤ streamPos ∧ streamPos < endPos then some (.ok seg, st)
        else advance fuel st

/-- Embedding of the Iterator impl for ChannelDataIter of item type bool
(tdms/src/channel_iter.rs lines 685-710): it reads one byte at the current
reader position and yields byte != 0. Unlike every other item type, it
never invokes advance_reader_to_next. -/
def nextBool (st : IterState) : Option Bool × IterState :=
  match st.reader.readExact 1 with
  | (.error _, r) => (none, { st with reader := r })
  | (.ok buf, r) => (some (buf.getD 0 0 ≠ 0), { st with reader := r })

/-- Embedding of the Iterator impl for ChannelDataIter of item type u8:
advance_reader_to_next, then read one byte and decode it in the segment's
endianness. The outer none means the advance recursion ran out of fuel. -/
def nextU8 (fuel : Nat) (st : IterState) : Option (Option Nat × IterState) :=
  match advance fuel st with
  | none => none
  | some (.error _, st) => some (none, st)
  | some (.ok _, st) =>
    match st.reader.readExact 1 with
    | (.error _, r) => some (none, { st with reader := r })
    | (.ok buf, r) => some (some (buf.getD 0 0), { st with reader := r })

/-- Embedding of the Iterator impl for ChannelDataIter of item type f64:
advance_reader_to_next, then read eight bytes and decode them in the
segment's endianness; the value is modelled by its 64-bit pattern. -/
def nextF64 (fuel : Nat) (st : IterState) : Option (Option Nat × IterState) :=
  match advance fuel st with
  | none => none
  | some (.error _, st) => some (none, st)
  | some (.ok seg, st) =>
    match st.reader.readExact 8 with
    | (.error _, r) => some (none, { st with reader := r })
    | (.ok buf, r) => some (some (toU64 seg.endianess buf), { st with reader := r })

/-- Embedding of the Iterator impl for ChannelDataIter of item type String
(tdms/src/channel_iter.rs lines 712-763): advance (its result value is
bound but never inspected by the source), take offset[index], compute
size = offset[index] - previous_offset (wrapping u32), store the new
previous offset, advance the offset index, read size bytes and validate
them as UTF-8. The value is the list of Unicode code points. -/
def nextString (fuel : Nat) (st : IterState) : Option (Option (List Nat) × IterState) :=
  match advance fuel st with
  | none => none
  | some (_, st) =>
    let index := st.stringOffsetIndex
    match st.stringOffsets.get? index with
    | none => some (none, st)
    | some o =>
      let size := u32sub o st.stringPreviousOffset
      let st := { st with stringPreviousOffset := o }
      let st := { st with stringOffsetIndex := index + 1 }
      match st.reader.readExact size with
      | (.error _, r) => some (none, { st with reader := r })
      | (.ok bytes, r) =>
        let st := { st with reader := r }
        match utf8Decode bytes with
        | some s => some (some s, st)
        | none => some (none, st)

/-- Lookup of a channel in a group map (claim-side convenience mirroring
Segment::get_channel on a bare group map). -/
def groupsGetChannel (groupPath path : List Nat) (gs : Groups) : Option Channel :=
  match imGet groupPath gs with
  | none => none
  | some none => none
  | some (some channels) => imGet path channels

/-- The wire codes accepted by TdmsDataType::try_from. -/
def acceptedCodes : List Int :=
  [0, 1, 2, 3, 4, 5, 6, 7, 8, 9, 10, 11, 0x19, 0x1a, 0x1b, 0x20, 0x21, 0x44,
   0x4f, 0x08000c, 0x10000d, -1]

/-- The k-th chunk position the specification predicts for a channel whose
first chunk is [s, e) in a segment with chunk size c and end position E:
the first chunk for k = 0, its translate by k·c with the end clamped to E
for k ≥ 1. -/
def pitem (s e c E k : Nat) : ChannelPositions :=
  (s + k * c, if k = 0 then e else min (e + k * c) E)

/-- The chunk-position list predicted for translates k = 0 .. K. -/
def posList (s e c E K : Nat) : List ChannelPositions :=
  (List.range (K + 1)).map (pitem s e c E)

/-- The number of replicated chunks the specification predicts: the count of
k ≥ 1 with s + k·c ≤ E. -/
def replCount (s c E : Nat) : Nat := if E < s then 0 else (E - s) / c

/-- The summand of spec invariant 2 for one metadata object: the raw-data
bytes the object contributes to chunk_size, after descriptor inheritance
(strings contribute number_of_bytes; objects without a channel path or
without a standard raw-data index contribute nothing). -/
def objContribution (previousSegment : Option Segment) (obj : MetadataObject) : Nat :=
  let paths := splitOnSlash obj.objectPath
  if obj.objectPath = [47] ∨ paths.length < 3 then 0
  else
    let obj := inheritIndices previousSegment paths obj
    if 3 ≤ paths.length ∧ paths.getD 2 [] ≠ [] then
      match obj.rawDataIndex with
      | none => 0
      | some index =>
        if index.dataType = .string ∧ index.numberOfBytes.isSome then
          index.numberOfBytes.getD 0
        else TdmsDataType.getSize index.dataType * index.arrayDimension * index.numberOfValues
    else 0

/-- The metadata object parsed from sentinelBytes: channel /'g'/'c' with a
standard I32 index of 2 values. -/
def sentinelObj : MetadataObject :=
  { objectPath := [47, 39, 103, 39, 47, 39, 99, 39],
    rawDataIndex := some { dataType := .i32, arrayDimension := 1,
                           numberOfValues := 2, numberOfBytes := none },
    daqmxDataIndex := none, properties := [] }

/-- A standard raw-data index for an I32 channel with 5 values. -/
def ivIdx : RawDataIndex :=
  { dataType := .i32, arrayDimension := 1, numberOfValues := 5, numberOfBytes := none }

/-- Metadata object for channel A of group g (path /'g'/'A' as code points,
quote = 39). -/
def ivObjA : MetadataObject :=
  { objectPath := [47, 39, 103, 39, 47, 39, 65, 39], rawDataIndex := some ivIdx,
    daqmxDataIndex := none, properties := [] }

/-- Metadata object for channel B of group g (path /'g'/'B'). -/
def ivObjB : MetadataObject :=
  { objectPath := [47, 39, 103, 39, 47, 39, 66, 39], rawDataIndex := some ivIdx,
    daqmxDataIndex := none, properties := [] }

/-- Walk state of an interleaved segment holding channels A and B
(ToC = kTocInterleavedData, raw_data_offset = 0, no previous segment). -/
def ivWalk : WalkState := walkObjects kTocInterleavedData none 0 [ivObjA, ivObjB]

/-- The group map of that interleaved segment after the interleaved fix-up
of Segment::new. -/
def ivGroups : Groups := (fixupGroups ivWalk.chunkSize ivWalk.interleavedTotalSize ivWalk.groups).1

/-- Metadata buffer (little-endian) with one object, path /'g'/'c', sentinel
0x14, then a standard raw-data index: type I32, dimension 1, 2 values, and
no properties. -/
def sentinelBytes : List Nat :=
  [1, 0, 0, 0,
   8, 0, 0, 0,
   47, 39, 103, 39, 47, 39, 99, 39,
   20, 0, 0, 0,
   3, 0, 0, 0,
   1, 0, 0, 0,
   2, 0, 0, 0, 0, 0, 0, 0,
   0, 0, 0, 0]

/-- The bytes of sentinelBytes that follow its sentinel: the standard
raw-data index (type I32, dimension 1, 2 values) and the property count. -/
def sentinelTail : List Nat :=
  [3, 0, 0, 0,
   1, 0, 0, 0,
   2, 0, 0, 0, 0, 0, 0, 0,
   0, 0, 0, 0]

/-- The raw-data index parsed from sentinelTail. -/
def sentinelIdx : RawDataIndex :=
  { dataType := .i32, arrayDimension := 1, numberOfValues := 2, numberOfBytes := none }

/-- Metadata buffer (little-endian) with one object, path /'g'/'c', sentinel
0xFFFFFFFF (no raw-data descriptor) and no properties. -/
def noDescriptorBytes : List Nat :=
  [1, 0, 0, 0,
   8, 0, 0, 0,
   47, 39, 103, 39, 47, 39, 99, 39,
   255, 255, 255, 255,
   0, 0, 0, 0]

/-- The metadata object parsed from noDescriptorBytes: channel /'g'/'c'
with no raw-data descriptor of either kind. -/
def noDescriptorObj : MetadataObject :=
  { objectPath := [47, 39, 103, 39, 47, 39, 99, 39], rawDataIndex := none,
    daqmxDataIndex := none, properties := [] }

/-- The walk state of Segment::new before processing any object of the
no-descriptor segment (data_pos = raw_data_offset = 1). -/
def noDescriptorWalkStart : WalkState :=
  { groups := [], dataPos := 1, interleavedTotalSize := 0, chunkSize := 0, objsAcc := [] }

/-- Lead-in for the no-descriptor segment: metadata-only ToC, next segment
offset 0, raw-data offset 1. -/
def noDescriptorLeadIn : LeadIn :=
  { tag := [84, 68, 83, 109], tableOfContents := 2, versionNumber := 4713,
    nextSegmentOffset := 0, rawDataOffset := 1 }

/-- Result of indexing the no-descriptor segment as the first segment of a
file. -/
def noDescriptorResult : Option (Except TdmsError Segment) :=
  Segment.new 4 noDescriptorBytes noDescriptorLeadIn 0 none

/-- The channel the no-descriptor segment indexes for (g, c). -/
def noDescriptorChannel : Channel :=
  { fullPath := [47, 39, 103, 39, 47, 39, 99, 39], groupPath := [103], path := [99],
    dataType := .void, rawDataIndex := none, daqmxDataIndex := none, properties := [],
    chunkPositions := [(1, 0)], stringOffsetPos := none, interleavedOffset := 0 }

/-- Metadata buffer (little-endian) with one object, path /'g'/'c', sentinel
0x14, then a standard raw-data index: type DoubleFloat, dimension 1, zero
values, no properties. Its channel spans no bytes, so chunk_size stays 0. -/
def zeroChunkBytes : List Nat :=
  [1, 0, 0, 0,
   8, 0, 0, 0,
   47, 39, 103, 39, 47, 39, 99, 39,
   20, 0, 0, 0,
   10, 0, 0, 0,
   1, 0, 0, 0,
   0, 0, 0, 0, 0, 0, 0, 0,
   0, 0, 0, 0]

/-- Lead-in for the zero-chunk segment: next segment offset 10, raw-data
offset 1. -/
def zeroChunkLeadIn : LeadIn :=
  { tag := [84, 68, 83, 109], tableOfContents := 2, versionNumber := 4713,
    nextSegmentOffset := 10, rawDataOffset := 1 }

/-- DAQmx index buffer (little-endian): marker 0xFFFFFFFF, dimension 1, two
values, one format-changing scaler record (type I32, zeros), then an empty
buffer vector. -/
def daqmxBytes : List Nat :=
  [255, 255, 255, 255,
   1, 0, 0, 0,
   2, 0, 0, 0, 0, 0, 0, 0,
   1, 0, 0, 0,
   3, 0, 0, 0,
   0, 0, 0, 0,
   0, 0, 0, 0,
   0, 0, 0, 0,
   0, 0, 0, 0,
   0, 0, 0, 0]

/-- The DAQmx index parsed from daqmxBytes. -/
def daqmxParsed : DAQmxDataIndex :=
  { dataType := .daqmxRawData, arrayDimension := 1, numberOfValues := 2,
    formatChangingSize := none, formatChangingVec := none,
    bufferVecSize := 0, buffers := [] }

/-- Lead-in of the segment used in the iterator scenarios: plain contiguous
layout, raw data begins 5 bytes after the segment start. -/
def iterLeadIn : LeadIn :=
  { tag := [84, 68, 83, 109], tableOfContents := 8, versionNumber := 4713,
    nextSegmentOffset := 20, rawDataOffset := 5 }

/-- Boolean channel of the iterator scenario: one chunk of bytes [5, 10). -/
def iterBoolChannel : Channel :=
  { fullPath := [47, 39, 103, 39, 47, 39, 99, 39], groupPath := [103], path := [99],
    dataType := .boolean,
    rawDataIndex := some { dataType := .boolean, arrayDimension := 1,
                           numberOfValues := 5, numberOfBytes := none },
    daqmxDataIndex := none, properties := [],
    chunkPositions := [(5, 10)], stringOffsetPos := none, interleavedOffset := 0 }

/-- Segment of the iterator scenario: bytes [0, 20), raw data at [5, 20). -/
def iterSegment : Segment :=
  { leadIn := iterLeadIn, metadata := none, startPos := 0, endPos := 20,
    groups := [([103], some [([99], iterBoolChannel)])], chunkSize := 5 }

/-- Reader over the 20-byte file of the iterator scenario: the lead-in
region bytes are 0, the channel's chunk bytes [5, 10) are 1. -/
def iterReader : Reader :=
  { data := [0, 0, 0, 0, 0, 1, 1, 1, 1, 1, 0, 0, 0, 0, 0, 0, 0, 0, 0, 0], pos := 0 }

/-- String channel of the string-iterator scenario: 2 strings, offset table
at bytes [2, 10), payload at [10, 17). -/
def strChannel : Channel :=
  { fullPath := [47, 39, 103, 39, 47, 39, 115, 39], groupPath := [103], path := [115],
    dataType := .string,
    rawDataIndex := some { dataType := .string, arrayDimension := 1,
                           numberOfValues := 2, numberOfBytes := some 7 },
    daqmxDataIndex := none, properties := [],
    chunkPositions := [(10, 17)], stringOffsetPos := some (2, 10),
    interleavedOffset := 0 }

/-- Lead-in of the string-iterator scenario segment: raw data 2 bytes after
the segment start. -/
def strLeadIn : LeadIn :=
  { tag := [84, 68, 83, 109], tableOfContents := 8, versionNumber := 4713,
    nextSegmentOffset := 20, rawDataOffset := 2 }

/-- Segment of the string-iterator scenario. -/
def strSegment : Segment :=
  { leadIn := strLeadIn, metadata := none, startPos := 0, endPos := 20,
    groups := [([103], some [([115], strChannel)])], chunkSize := 15 }

/-- File bytes of the string-iterator scenario: 2 filler bytes, the
little-endian u32 offsets 3 and 7, then the payload "foobar!" and padding. -/
def strData : List Nat :=
  [0, 0, 3, 0, 0, 0, 7, 0, 0, 0, 102, 111, 111, 98, 97, 114, 33, 0, 0, 0]

/-- String-iterator state right before set_string_offsets runs. -/
def strIterStart : IterState :=
  { channel := strChannel, currentPos := (10, 17), segments := [strSegment],
    reader := { data := strData, pos := 0 }, currentSegmentIndex := 0,
    currentSegmentOffsets := [], stringOffsets := [], stringOffsetIndex := 0,
    stringPreviousOffset := 0, offsetIndex := 0 }

/-- String-iterator state with the offset table loaded and the reader at the
payload start. -/
def strIterLoaded : IterState :=
  { strIterStart with
    reader := { data := strData, pos := 10 },
    stringOffsets := [3, 7] }

/-- Iterator state immediately after ChannelDataIter::new: reader at the
first segment's start position, first chunk positions cached. -/
def iterStart : IterState :=
  { channel := iterBoolChannel, currentPos := (5, 10), segments := [iterSegment],
    reader := iterReader, currentSegmentIndex := 0, currentSegmentOffsets := [],
    stringOffsets := [], stringOffsetIndex := 0, stringPreviousOffset := 0,
    offsetIndex := 0 }

/-! Theorems. -/

/-- Claim C7 (corrected): the data-type registry accepts the claimed set of
codes except that the complex-float codes are 0x0008000C and 0x0010000D, not
0x0800000C and 0x1000000D: every accepted code maps to its variant (String
0x20, Boolean 0x21, TimeStamp 0x44, FixedPoint 0x4F, ComplexSingleFloat
0x0008000C, ComplexDoubleFloat 0x0010000D, DAQmxRawData 0xFFFFFFFF alias -1)
and every integer outside the set fails with UnknownDataType. -/
theorem c7_registry_codes :
    (∀ v : Int, v ∉ acceptedCodes → TdmsDataType.tryFrom v = .error .unknownDataType) ∧
    TdmsDataType.tryFrom 0x20 = .ok .string ∧
    TdmsDataType.tryFrom 0x21 = .ok .boolean ∧
    TdmsDataType.tryFrom 0x44 = .ok .timeStamp ∧
    TdmsDataType.tryFrom 0x4f = .ok .fixedPoint ∧
    TdmsDataType.tryFrom 0x0008000c = .ok .complexSingleFloat ∧
    TdmsDataType.tryFrom 0x0010000d = .ok .complexDoubleFloat ∧
    TdmsDataType.tryFrom (-1) = .ok .daqmxRawData ∧
    (∀ v ∈ acceptedCodes, (TdmsDataType.tryFrom v).isOk = true) := by
  refine ⟨?_, by decide⟩
  intro v hv
  simp only [acceptedCodes, List.mem_cons, List.not_mem_nil, or_false] at hv
  push_neg at hv
  obtain ⟨h0, h1, h2, h3, h4, h5, h6, h7, h8, h9, h10, h11, h12, h13, h14, h15,
    h16, h17, h18, h19, h20, h21⟩ := hv
  simp [TdmsDataType.tryFrom, h0, h1, h2, h3, h4, h5, h6, h7, h8, h9, h10, h11,
    h12, h13, h14, h15, h16, h17, h18, h19, h20, h21]

/-- Witness for c7_registry_codes: the code 99 lies outside the accepted set
and is rejected with UnknownDataType. -/
theorem c7_registry_codes_witness :
    TdmsDataType.tryFrom 99 = .error .unknownDataType :=
  c7_registry_codes.1 99 (by decide)

/-- Counterexample to claim C7 as stated: the registry rejects 0x0800000C
and 0x1000000D with UnknownDataType, and instead accepts the complex-float
variants at 0x0008000C and 0x0010000D. -/
theorem c7_complex_codes_counterexample :
    TdmsDataType.tryFrom 0x0800000c = .error .unknownDataType ∧
    TdmsDataType.tryFrom 0x1000000d = .error .unknownDataType ∧
    TdmsDataType.tryFrom 0x0008000c = .ok .complexSingleFloat ∧
    TdmsDataType.tryFrom 0x0010000d = .ok .complexDoubleFloat := by
  decide

/-- Claim C10 (confirmed): whenever DAQmxDataIndex::from_reader succeeds,
the returned index has format_changing_size = None and
format_changing_vec = None, for both variants of the parser. -/
theorem c10_daqmx_fields_none (e : Endianness) (r : List Nat) (fmt : Bool)
    (idx : DAQmxDataIndex) (rest : List Nat)
    (h : DAQmxDataIndex.fromReader e r fmt = .ok (idx, rest)) :
    idx.formatChangingSize = none ∧ idx.formatChangingVec = none := by
  unfold DAQmxDataIndex.fromReader at h
  repeat' (first | (split at h) | (simp only [] at h))
  all_goals (try (exact Except.noConfusion h))
  all_goals
    simp only [Except.ok.injEq, Prod.mk.injEq] at h
  all_goals
    obtain ⟨h1, h2⟩ := h
  all_goals subst h1
  all_goals exact ⟨rfl, rfl⟩

/-- Witness for c10_daqmx_fields_none: the concrete format-changing DAQmx
buffer daqmxBytes parses successfully (consuming its scaler record) and both
format-changing fields of the result are None. -/
theorem c10_daqmx_fields_none_witness :
    DAQmxDataIndex.fromReader .little daqmxBytes true = .ok (daqmxParsed, []) ∧
    daqmxParsed.formatChangingSize = none ∧ daqmxParsed.formatChangingVec = none :=
  ⟨by decide, c10_daqmx_fields_none .little daqmxBytes true daqmxParsed [] (by decide)⟩

/-- Claim C1 (code bug): in the interleaved fix-up of Segment::new the
running interleaved_total_size keeps growing while offsets are assigned, so
with two I32 channels (row size 8) channel A receives interleaved_offset 4
but channel B receives 8, although the claim (row size minus the channel's
own type size) demands 4 for both; B's stride between consecutive samples is
size + offset = 12, not the row size 8. -/
theorem c1_interleaved_offsets_compound :
    ivWalk.interleavedTotalSize = 8 ∧
    (groupsGetChannel [103] [65] ivGroups).map Channel.interleavedOffset = some 4 ∧
    (groupsGetChannel [103] [66] ivGroups).map Channel.interleavedOffset = some 8 ∧
    (groupsGetChannel [103] [66] ivGroups).map Channel.interleavedOffset ≠
      some (ivWalk.interleavedTotalSize - TdmsDataType.getSize .i32) := by
  decide

/-- Claim C8 (code bug): the bool iterator's next() reads one byte at the
current reader position without invoking the advance step, while the u8
iterator at the same state first repositions the reader to the chunk start.
At iterStart (reader at segment start 0, chunk at [5, 10), byte 0 being
lead-in filler 0 and byte 5 being 1) the bool iterator yields false read
from position 0, whereas the advancing u8 iterator yields the chunk byte 1
read from position 5. -/
theorem c8_bool_next_skips_advance :
    nextBool iterStart =
      (some false, { iterStart with reader := { iterReader with pos := 1 } }) ∧
    nextU8 10 iterStart =
      some (some 1, { iterStart with reader := { iterReader with pos := 6 } }) ∧
    iterStart.reader.pos = 0 ∧ iterStart.currentPos.1 = 5 ∧
    iterReader.data.getD 5 0 = 1 := by
  decide

/-- Counterexample to claim C3 as stated: in the interleaved segment ivWalk
(two I32 channels of 5 values each) the channels' standard-index
contributions sum to 40, but Segment::new leaves chunk_size at 0 because the
accumulation only happens in the non-interleaved branch. -/
theorem c3_interleaved_chunk_size_zero :
    ivWalk.chunkSize = 0 ∧
    ([ivObjA, ivObjB].map (objContribution none)).sum = 40 ∧
    ivWalk.chunkSize ≠ ([ivObjA, ivObjB].map (objContribution none)).sum := by
  decide

/-- Counterexample to claim C4 as stated: indexing a first segment whose
only channel object carries the no-descriptor sentinel succeeds (no
malformed-file error); the channel is silently indexed with data type Void,
no raw-data index, and first chunk position (raw_data_offset, 0). -/
theorem c4_no_error_counterexample :
    noDescriptorResult.map Except.isOk = some true ∧
    noDescriptorResult.map (fun r =>
      match r with
      | .ok seg => seg.getChannel [103] [99]
      | .error _ => none) = some (some noDescriptorChannel) := by
  decide

/-- Counterexample to claim C5 as stated: parsing the metadata buffer
sentinelBytes, whose object carries the sentinel 0x14 followed by a
standard index with type code 3, produces a raw-data index whose data type
is I32 (the code 3 that follows the sentinel), although the sentinel value
0x14 itself is not even an accepted type code. -/
theorem c5_sentinel_not_type_code :
    (Metadata.fromReader .little sentinelBytes).map (fun p =>
      p.1.objects.map (fun o => o.rawDataIndex.map RawDataIndex.dataType)) =
      .ok [some TdmsDataType.i32] ∧
    TdmsDataType.tryFrom 0x14 = .error .unknownDataType := by
  decide

/-- Counterexample to claim C2 as stated: the chunk-replication loop of
Segment::new does not terminate for a channel whose first chunk is [1, 1)
in a segment with chunk_size 0 and segment_end_pos 10 (as produced by the
zeroChunkBytes segment: one DoubleFloat channel with zero values); no
derivation of the loop's termination predicate exists from that state, and
Segment::new exhausts any fuel, e.g. 100. -/
theorem c2_replication_nonterminating :
    ¬ ReplTerm 0 10 0 [(1, 1)] ∧
    Segment.new 100 zeroChunkBytes zeroChunkLeadIn 0 none = none := by
  constructor
  · intro h
    have key : ∀ (i : Nat) (ps : List ChannelPositions), ReplTerm 0 10 i ps →
        (∀ q ∈ ps, q = ((1 : Nat), (1 : Nat))) → ps.get? i ≠ none → False := by
      intro i ps h
      induction h with
      | missing i ps hget => intro _ hne; exact hne hget
      | stop i ps p hget hlt =>
        intro hall _
        have hp : p = (1, 1) := hall p (List.get?_mem hget)
        subst hp
        simp at hlt
      | step i ps p hget hle hsub ih =>
        intro hall _
        have hp : p = (1, 1) := hall p (List.get?_mem hget)
        subst hp
        apply ih
        · intro q hq
          rcases List.mem_append.1 hq with hq | hq
          · exact hall q hq
          · simp at hq
            simp [hq]
        · have hlen : i < ps.length := by
            by_contra hcon
            rw [List.get?_eq_none.2 (by omega)] at hget
            exact Option.noConfusion hget
          rw [List.get?_eq_get (by simp; omega)]
          simp
    exact key 0 [(1, 1)] h (by simp) (by simp)
  · decide

/-- Clamping an end position to the segment end equals taking the minimum. -/
theorem clamp_eq_min (x E : Nat) : (if E < x then E else x) = min x E := by
  rcases Nat.le_total x E with h | h
  · rw [if_neg (by omega), Nat.min_eq_left h]
  · rcases Nat.lt_or_ge E x with h2 | h2
    · rw [if_pos h2, Nat.min_eq_right h]
    · rw [if_neg (by omega), Nat.min_eq_left h2]

/-- First component of a predicted chunk position. -/
theorem pitem_fst (s e c E k : Nat) : (pitem s e c E k).1 = s + k * c := rfl

/-- The predicted list for K translates has the k-th item at index k. -/
theorem posList_get (s e c E k : Nat) :
    (posList s e c E k).get? k = some (pitem s e c E k) := by
  unfold posList
  rw [List.get?_map, List.get?_range (by omega)]
  rfl

/-- Extending the predicted list by one more translate appends one item. -/
theorem posList_succ (s e c E k : Nat) :
    posList s e c E (k + 1) = posList s e c E k ++ [pitem s e c E (k + 1)] := by
  unfold posList
  rw [List.range_succ, List.map_append]
  rfl

/-- The replication loop, started at step k over the predicted position
list, runs to exactly replCount translates, provided chunk_size is positive
and the first chunk's span is at most chunk_size. -/
theorem replLoop_posList (c E s e : Nat) (hc : 0 < c) (hspan : e ≤ s + c) :
    ∀ fuel k, k ≤ replCount s c E → replCount s c E - k < fuel →
      replLoop c E fuel k (posList s e c E k) =
        some (.ok (posList s e c E (replCount s c E))) := by
  intro fuel
  induction fuel with
  | zero => intro k _ hf; omega
  | succ fuel ih =>
    intro k hk hf
    rw [replLoop, posList_get]
    simp only []
    rcases Nat.lt_or_ge k (replCount s c E) with hlt | hge
    · have hkc : s + (k + 1) * c ≤ E := by
        have hEs : ¬ E < s := by
          intro hcon
          unfold replCount at hlt
          rw [if_pos hcon] at hlt
          omega
        have hdiv : (k + 1) * c ≤ E - s := by
          apply (Nat.le_div_iff_mul_le hc).1
          unfold replCount at hlt
          rw [if_neg hEs] at hlt
          omega
        omega
      have hnot : ¬ E < (pitem s e c E k).1 + c := by
        rw [pitem_fst]
        have heq : s + k * c + c = s + (k + 1) * c := by ring
        omega
      rw [if_neg hnot]
      have hp2 : (pitem s e c E k).2 = e + k * c := by
        unfold pitem
        rcases Nat.eq_zero_or_pos k with hz | hpos
        · subst hz; simp
        · have hle : e + k * c ≤ E := by
            have h1 : e + k * c ≤ s + c + k * c := by omega
            have h2 : s + c + k * c = s + (k + 1) * c := by ring
            omega
          have hkz : k ≠ 0 := by omega
          simp only [if_neg hkz]
          exact Nat.min_eq_left hle
      have hpush : ((pitem s e c E k).1 + c,
          if E < (pitem s e c E k).2 + c then E else (pitem s e c E k).2 + c) =
          pitem s e c E (k + 1) := by
        rw [pitem_fst, hp2, clamp_eq_min]
        unfold pitem
        rw [if_neg (by omega)]
        have h1 : s + k * c + c = s + (k + 1) * c := by ring
        have h2 : e + k * c + c = e + (k + 1) * c := by ring
        rw [h1, h2]
      rw [hpush, ← posList_succ]
      exact ih (k + 1) (by omega) (by omega)
    · have hkK : k = replCount s c E := by omega
      subst hkK
      have hstop : E < (pitem s e c E (replCount s c E)).1 + c := by
        rw [pitem_fst]
        unfold replCount
        rcases Nat.lt_or_ge E s with hEs | hEs
        · rw [if_pos hEs]; omega
        · rw [if_neg (by omega)]
          have hlt2 : (E - s) / c < (E - s) / c + 1 := by omega
          have hmul : E - s < ((E - s) / c + 1) * c := (Nat.div_lt_iff_lt_mul hc).1 hlt2
          have h3 : ((E - s) / c + 1) * c = (E - s) / c * c + c := by ring
          omega
      rw [if_pos hstop]

/-- Claim C2 (corrected): for a channel whose single recorded first chunk is
[s, e) in a segment with positive chunk_size c and segment end E, with
e ≤ s + c (true of every channel the metadata walk produces, since one
channel's span never exceeds the whole chunk), the replication loop of
Segment::new terminates and the chunk positions become exactly the first
chunk followed by its translates (s + k·c, min (e + k·c) E) for
k = 1 .. replCount (the number of k ≥ 1 with s + k·c ≤ E); a channel of
type DAQmxRawData keeps only its first chunk position. -/
theorem c2_replication_positions (fuel c E s e : Nat) (ch : Channel)
    (hch : ch.chunkPositions = [(s, e)]) (hc : 0 < c) (hspan : e ≤ s + c)
    (hfuel : replCount s c E < fuel) :
    (ch.dataType ≠ .daqmxRawData →
      replicateChannel fuel c E ch =
        some (.ok { ch with chunkPositions := posList s e c E (replCount s c E) })) ∧
    (ch.dataType = .daqmxRawData → replicateChannel fuel c E ch = some (.ok ch)) := by
  constructor
  · intro hdt
    unfold replicateChannel
    rw [if_neg hdt, hch]
    have h0 : [((s : Nat), (e : Nat))] = posList s e c E 0 := by
      unfold posList pitem
      simp [List.range_succ]
    rw [h0, replLoop_posList c E s e hc hspan fuel 0 (by omega) (by omega)]
  · intro hdt
    unfold replicateChannel
    rw [if_pos hdt]

/-- Witness for c2_replication_positions: the boolean channel with first
chunk [5, 10) in a segment with chunk_size 5 and end position 12 replicates
to [(5, 10), (10, 12)]: one translate, with the end clamped from 15 to 12. -/
theorem c2_replication_positions_witness :
    (0 : Nat) < 5 ∧ (10 : Nat) ≤ 5 + 5 ∧ replCount 5 5 12 < 10 ∧
    iterBoolChannel.chunkPositions = [(5, 10)] ∧
    iterBoolChannel.dataType ≠ .daqmxRawData ∧
    replicateChannel 10 5 12 iterBoolChannel =
      some (.ok { iterBoolChannel with
                  chunkPositions := posList 5 10 5 12 (replCount 5 5 12) }) ∧
    posList 5 10 5 12 (replCount 5 5 12) = [(5, 10), (10, 12)] :=
  ⟨by decide, by decide, by decide, by decide, by decide,
   (c2_replication_positions 10 5 12 5 10 iterBoolChannel (by decide) (by decide)
     (by decide) (by decide)).1 (by decide),
   by decide⟩

/-- One object's effect on the running chunk_size in a non-interleaved
segment is exactly its contribution. -/
theorem processObject_chunkSize (toc : Nat) (prev : Option Segment)
    (st : WalkState) (obj : MetadataObject)
    (hni : toc &&& kTocInterleavedData = 0) :
    (processObject toc prev st obj).chunkSize = st.chunkSize + objContribution prev obj := by
  unfold processObject objContribution
  simp only []
  split
  · simp
  · split
    · rw [hni]
      cases hidx : (inheritIndices prev (splitOnSlash obj.objectPath) obj).rawDataIndex with
      | none => unfold channelGeometry; simp
      | some index =>
        unfold channelGeometry
        simp only []
        split
        · simp_all
        · split <;> simp
    · simp

/-- Claim C3 (corrected): in a non-interleaved segment the chunk_size
computed by the metadata walk of Segment::new equals the sum over the
metadata objects of their standard-index contributions
(size(data_type) * array_dimension * number_of_values, strings contributing
number_of_bytes), descriptors being resolved by inheritance first. For
interleaved segments the walk leaves chunk_size at 0, refuting the claim's
"interleaved as well as contiguous" (see the counterexample). -/
theorem c3_chunk_size_sum (toc : Nat) (prev : Option Segment) (rawOff : Nat)
    (objs : List MetadataObject) (hni : toc &&& kTocInterleavedData = 0) :
    (walkObjects toc prev rawOff objs).chunkSize =
      (objs.map (objContribution prev)).sum := by
  unfold walkObjects
  suffices h : ∀ st : WalkState, (objs.foldl (processObject toc prev) st).chunkSize =
      st.chunkSize + (objs.map (objContribution prev)).sum by
    rw [h]
    simp
  induction objs with
  | nil => intro st; simp
  | cons o rest ih =>
    intro st
    simp only [List.foldl_cons, List.map_cons, List.sum_cons]
    rw [ih, processObject_chunkSize toc prev st o hni]
    omega

/-- Witness for c3_chunk_size_sum: a non-interleaved metadata-only segment
holding one I32 channel with 2 values has chunk_size 8 = 4 * 1 * 2. -/
theorem c3_chunk_size_sum_witness :
    (walkObjects 2 none 1 [sentinelObj]).chunkSize = 8 ∧
    ([sentinelObj].map (objContribution none)).sum = 8 := by
  rw [c3_chunk_size_sum 2 none 1 [sentinelObj] (by decide)]
  exact ⟨by decide, by decide⟩

/-- Looking up the key just inserted in an insertion-ordered map yields the
inserted value. -/
theorem imGet_imInsert_self {β : Type} (k : List Nat) (v : β) :
    ∀ m : List (List Nat × β), imGet k (imInsert k v m) = some v := by
  intro m
  induction m with
  | nil => simp [imGet, imInsert]
  | cons p rest ih =>
    obtain ⟨k1, v1⟩ := p
    unfold imInsert
    by_cases h : k1 = k
    · subst h; simp [imGet]
    · rw [if_neg h]
      unfold imGet
      rw [if_neg h]
      exact ih

/-- Claim C4 (corrected): when a channel object carries neither a standard
raw-data index nor a DAQmx index and no previous-segment channel supplies
one, Segment::new does not fail; the metadata walk still indexes the
channel, with data type Void, no descriptors, first chunk position
(data_pos, 0), and interleaved offset 0. -/
theorem c4_missing_descriptor_indexed_void (toc : Nat) (prev : Option Segment)
    (st : WalkState) (obj : MetadataObject)
    (hraw : obj.rawDataIndex = none) (hdaq : obj.daqmxDataIndex = none)
    (hlen : 3 ≤ (splitOnSlash obj.objectPath).length)
    (hg : (splitOnSlash obj.objectPath).getD 1 [] ≠ [])
    (hcp : (splitOnSlash obj.objectPath).getD 2 [] ≠ [])
    (hprev : ∀ prevSeg, prev = some prevSeg →
      prevSeg.getChannel (remQuotes ((splitOnSlash obj.objectPath).getD 1 []))
        (remQuotes ((splitOnSlash obj.objectPath).getD 2 [])) = none) :
    groupsGetChannel (remQuotes ((splitOnSlash obj.objectPath).getD 1 []))
      (remQuotes ((splitOnSlash obj.objectPath).getD 2 []))
      (processObject toc prev st obj).groups =
      some { fullPath := obj.objectPath,
             groupPath := remQuotes ((splitOnSlash obj.objectPath).getD 1 []),
             path := remQuotes ((splitOnSlash obj.objectPath).getD 2 []),
             dataType := .void, rawDataIndex := none, daqmxDataIndex := none,
             properties := obj.properties, chunkPositions := [(st.dataPos, 0)],
             stringOffsetPos := none, interleavedOffset := 0 } := by
  have hnotroot : obj.objectPath ≠ [47] := by
    intro hcon
    rw [hcon] at hlen
    simp [splitOnSlash] at hlen
  have hinh : inheritIndices prev (splitOnSlash obj.objectPath) obj = obj := by
    unfold inheritIndices
    cases prev with
    | none => rfl
    | some p =>
      simp only []
      rw [if_pos ⟨hraw, hdaq⟩, hprev p rfl]
  unfold processObject
  simp only []
  rw [if_neg (show ¬ (obj.objectPath = [47] ∨ (splitOnSlash obj.objectPath).length < 3) by
    push_neg
    exact ⟨hnotroot, by omega⟩)]
  rw [hinh, hraw, hdaq]
  simp only []
  rw [if_pos (show (3 : Nat) ≤ (splitOnSlash obj.objectPath).length ∧
    (splitOnSlash obj.objectPath).getD 2 [] ≠ [] from ⟨hlen, hcp⟩)]
  unfold channelGeometry
  simp only []
  rw [if_pos (show (2 : Nat) ≤ (splitOnSlash obj.objectPath).length ∧
    (splitOnSlash obj.objectPath).getD 1 [] ≠ [] from ⟨by omega, hg⟩)]
  set gk := remQuotes ((splitOnSlash obj.objectPath).getD 1 []) with hgk
  set ck := remQuotes ((splitOnSlash obj.objectPath).getD 2 []) with hck
  rcases hq : imGet gk st.groups with _ | v
  · simp only [hq, Option.isSome_none, Bool.false_eq_true, if_false]
    rw [imGet_imInsert_self]
    simp only []
    unfold groupsGetChannel
    rw [imGet_imInsert_self]
    simp only []
    simp [imGet]
  · rcases v with _ | m
    · simp only [hq, Option.isSome_some, if_true]
      unfold groupsGetChannel
      rw [imGet_imInsert_self]
      simp only []
      simp [imGet]
    · simp only [hq, Option.isSome_some, if_true]
      unfold groupsGetChannel
      rw [imGet_imInsert_self]
      simp only []
      rw [imGet_imInsert_self]

/-- Witness for c4_missing_descriptor_indexed_void: processing the concrete
no-descriptor object /'g'/'c' as the first segment's only object indexes
channel (g, c) with data type Void and chunk (1, 0). -/
theorem c4_missing_descriptor_indexed_void_witness :
    groupsGetChannel [103] [99]
      (processObject 2 none noDescriptorWalkStart noDescriptorObj).groups =
      some noDescriptorChannel := by
  have h := c4_missing_descriptor_indexed_void 2 none noDescriptorWalkStart
    noDescriptorObj (by decide) (by decide) (by decide) (by decide) (by decide)
    (fun prevSeg hcon => Option.noConfusion hcon)
  exact h

/-- Claim C5 (corrected): for a sentinel outside the seven reserved values,
the metadata parser dispatches to a standard raw-data index parsed from the
bytes FOLLOWING the sentinel; in particular the index's data-type code is
decoded from the four bytes after the sentinel, not from the sentinel's own
bytes. -/
theorem c5_raw_index_after_sentinel (e : Endianness) (s : Nat) (r : List Nat)
    (hs : s ∉ ([0xffffffff, 0x0000000, 0x00001269, 0x69120000, 0x0000126a,
                0x00001369, 0x69130000] : List Nat)) :
    parseIndices e s r =
      (match RawDataIndex.fromReader e r with
       | .error err => .error err
       | .ok (index, rest) => .ok (some index, none, rest)) ∧
    (∀ index rest, RawDataIndex.fromReader e r = .ok (index, rest) →
      TdmsDataType.tryFrom (toI32 e (r.take 4)) = .ok index.dataType) := by
  simp only [List.mem_cons, List.not_mem_nil, or_false] at hs
  push_neg at hs
  obtain ⟨h1, h2, h3, h4, h5, h6, h7⟩ := hs
  constructor
  · unfold parseIndices
    rw [if_neg (by omega), if_neg (by omega), if_pos ⟨h1, h2⟩]
    try rfl
  · intro index rest h
    unfold RawDataIndex.fromReader at h
    unfold splitAtE at h
    by_cases hlen : 4 ≤ r.length
    · rw [if_pos hlen] at h
      simp only [] at h
      repeat' (first | (split at h) | (simp only [] at h))
      all_goals (try (exact Except.noConfusion h))
      all_goals
        simp only [Except.ok.injEq, Prod.mk.injEq] at h
      all_goals
        obtain ⟨hh1, hh2⟩ := h
      all_goals subst hh1
      all_goals simp_all
    · rw [if_neg hlen] at h
      exact Except.noConfusion h

/-- Witness for c5_raw_index_after_sentinel: with sentinel 0x14 = 20 and the
concrete following bytes sentinelTail, the parser returns the I32 index
whose type code 3 is decoded from the four bytes after the sentinel. -/
theorem c5_raw_index_after_sentinel_witness :
    parseIndices .little 20 sentinelTail = .ok (some sentinelIdx, none, [0, 0, 0, 0]) ∧
    TdmsDataType.tryFrom (toI32 .little (sentinelTail.take 4)) = .ok sentinelIdx.dataType := by
  have h := c5_raw_index_after_sentinel .little 20 sentinelTail (by decide)
  constructor
  · rw [h.1]
    decide
  · exact h.2 sentinelIdx [0, 0, 0, 0] (by decide)

/-- Little-endian value of four bytes, as an explicit polynomial. -/
theorem leNat4 (a b c d : Nat) :
    leNat [a, b, c, d] = a + 256 * b + 65536 * c + 16777216 * d := by
  simp [leNat]
  ring

/-- Little-endian value of eight bytes, as an explicit polynomial. -/
theorem leNat8 (a b c d f g h i : Nat) :
    leNat [a, b, c, d, f, g, h, i] =
      a + 256 * b + 65536 * c + 16777216 * d + 4294967296 * f +
      1099511627776 * g + 281474976710656 * h + 72057594037927936 * i := by
  simp [leNat]
  ring

/-- Evaluation of LeadIn::from_bytes on an arbitrary 28-byte buffer. -/
theorem leadIn_fromBytes_eval (b0 b1 b2 b3 b4 b5 b6 b7 b8 b9 b10 b11 b12 b13
    b14 b15 b16 b17 b18 b19 b20 b21 b22 b23 b24 b25 b26 b27 : Nat) :
    LeadIn.fromBytes [b0, b1, b2, b3, b4, b5, b6, b7, b8, b9, b10, b11, b12, b13,
        b14, b15, b16, b17, b18, b19, b20, b21, b22, b23, b24, b25, b26, b27] =
      (if [b0, b1, b2, b3] = [0x54, 0x44, 0x53, 0x6d] then
        .ok { tag := [b0, b1, b2, b3],
              tableOfContents := leNat [b4, b5, b6, b7],
              versionNumber := if leNat [b4, b5, b6, b7] &&& 64 ≠ 0
                then leNat [b11, b10, b9, b8] else leNat [b8, b9, b10, b11],
              nextSegmentOffset := if leNat [b4, b5, b6, b7] &&& 64 ≠ 0
                then leNat [b19, b18, b17, b16, b15, b14, b13, b12]
                else leNat [b12, b13, b14, b15, b16, b17, b18, b19],
              rawDataOffset := if leNat [b4, b5, b6, b7] &&& 64 ≠ 0
                then leNat [b27, b26, b25, b24, b23, b22, b21, b20]
                else leNat [b20, b21, b22, b23, b24, b25, b26, b27] }
      else .error .invalidSegment) := by
  unfold LeadIn.fromBytes splitAtE
  simp only [List.length_cons, List.length_nil]
  norm_num [List.take, List.drop, kTocBigEndian]
  by_cases ht : [b0, b1, b2, b3] = ([0x54, 0x44, 0x53, 0x6d] : List Nat)
  · obtain ⟨e0, e1, e2, e3⟩ : b0 = 84 ∧ b1 = 68 ∧ b2 = 83 ∧ b3 = 109 := by simpa using ht
    subst e0; subst e1; subst e2; subst e3
    norm_num
  · have hconj : ¬ (b0 = 84 ∧ b1 = 68 ∧ b2 = 83 ∧ b3 = 109) := by simpa using ht
    rw [if_pos (by tauto), if_neg hconj]

/-- Claim C6 (confirmed): on a 28-byte buffer whose tag bytes are
0x54 0x44 0x53 0x6d, LeadIn::from_bytes succeeds with the Table of Contents
decoded little-endian from bytes 4..8 regardless of the kBigEndian bit, and
version (bytes 8..12), next-segment offset (bytes 12..20) and raw-data
offset (bytes 20..28) decoded big-endian exactly when bit 0x40 of the ToC is
set and little-endian otherwise; a buffer whose tag differs fails with
InvalidSegment. -/
theorem c6_lead_in_fields (b0 b1 b2 b3 b4 b5 b6 b7 b8 b9 b10 b11 b12 b13
    b14 b15 b16 b17 b18 b19 b20 b21 b22 b23 b24 b25 b26 b27 : Nat)
    (hbytes : ([b0, b1, b2, b3, b4, b5, b6, b7, b8, b9, b10, b11, b12, b13,
        b14, b15, b16, b17, b18, b19, b20, b21, b22, b23, b24, b25, b26,
        b27].all (fun x => x < 256)) = true) :
    (b0 = 0x54 ∧ b1 = 0x44 ∧ b2 = 0x53 ∧ b3 = 0x6d →
      LeadIn.fromBytes [b0, b1, b2, b3, b4, b5, b6, b7, b8, b9, b10, b11, b12, b13,
          b14, b15, b16, b17, b18, b19, b20, b21, b22, b23, b24, b25, b26, b27] =
        .ok { tag := [b0, b1, b2, b3],
              tableOfContents := b4 + 256 * b5 + 65536 * b6 + 16777216 * b7,
              versionNumber :=
                if (b4 + 256 * b5 + 65536 * b6 + 16777216 * b7) &&& 64 ≠ 0
                then b11 + 256 * b10 + 65536 * b9 + 16777216 * b8
                else b8 + 256 * b9 + 65536 * b10 + 16777216 * b11,
              nextSegmentOffset :=
                if (b4 + 256 * b5 + 65536 * b6 + 16777216 * b7) &&& 64 ≠ 0
                then b19 + 256 * b18 + 65536 * b17 + 16777216 * b16 +
                  4294967296 * b15 + 1099511627776 * b14 +
                  281474976710656 * b13 + 72057594037927936 * b12
                else b12 + 256 * b13 + 65536 * b14 + 16777216 * b15 +
                  4294967296 * b16 + 1099511627776 * b17 +
                  281474976710656 * b18 + 72057594037927936 * b19,
              rawDataOffset :=
                if (b4 + 256 * b5 + 65536 * b6 + 16777216 * b7) &&& 64 ≠ 0
                then b27 + 256 * b26 + 65536 * b25 + 16777216 * b24 +
                  4294967296 * b23 + 1099511627776 * b22 +
                  281474976710656 * b21 + 72057594037927936 * b20
                else b20 + 256 * b21 + 65536 * b22 + 16777216 * b23 +
                  4294967296 * b24 + 1099511627776 * b25 +
                  281474976710656 * b26 + 72057594037927936 * b27 }) ∧
    (¬ (b0 = 0x54 ∧ b1 = 0x44 ∧ b2 = 0x53 ∧ b3 = 0x6d) →
      LeadIn.fromBytes [b0, b1, b2, b3, b4, b5, b6, b7, b8, b9, b10, b11, b12, b13,
          b14, b15, b16, b17, b18, b19, b20, b21, b22, b23, b24, b25, b26, b27] =
        .error .invalidSegment) := by
  rw [leadIn_fromBytes_eval]
  constructor
  · rintro ⟨e0, e1, e2, e3⟩
    rw [if_pos (by simp [e0, e1, e2, e3])]
    simp only [leNat4, leNat8]
  · intro hne
    rw [if_neg (by simpa using hne)]

/-- Witness for c6_lead_in_fields: a big-endian lead-in (ToC 0x40) decodes
version 9, next-segment offset 5 and raw-data offset 7 from the big-endian
byte positions, and a buffer with a wrong first tag byte is rejected. -/
theorem c6_lead_in_fields_witness :
    LeadIn.fromBytes [84, 68, 83, 109, 64, 0, 0, 0, 0, 0, 0, 9,
        0, 0, 0, 0, 0, 0, 0, 5, 0, 0, 0, 0, 0, 0, 0, 7] =
      .ok { tag := [84, 68, 83, 109], tableOfContents := 64, versionNumber := 9,
            nextSegmentOffset := 5, rawDataOffset := 7 } ∧
    LeadIn.fromBytes [0, 68, 83, 109, 64, 0, 0, 0, 0, 0, 0, 9,
        0, 0, 0, 0, 0, 0, 0, 5, 0, 0, 0, 0, 0, 0, 0, 7] =
      .error .invalidSegment := by
  constructor
  · have h := (c6_lead_in_fields 84 68 83 109 64 0 0 0 0 0 0 9
      0 0 0 0 0 0 0 5 0 0 0 0 0 0 0 7 (by decide)).1
      ⟨rfl, rfl, rfl, rfl⟩
    rw [h]
    decide
  · have h := (c6_lead_in_fields 0 68 83 109 64 0 0 0 0 0 0 9
      0 0 0 0 0 0 0 5 0 0 0 0 0 0 0 7 (by decide)).2 (by decide)
    exact h

/-- The offset-read loop of set_string_offsets, started at position pos with
limit pos + 4·n within the data, reads exactly n little-or-big-endian u32
values taken from consecutive 4-byte slices. -/
theorem readOffsetsLoop_run (segments : List Segment) (s0 : Segment)
    (hseg : segments.get? 0 = some s0) :
    ∀ (n : Nat) (r : Reader) (acc : List Nat), r.pos + 4 * n ≤ r.data.length →
      readOffsetsLoop segments (r.pos + 4 * n) r acc =
        (.ok (), { data := r.data, pos := r.pos + 4 * n },
         acc ++ (List.range n).map
           (fun j => toU32 s0.endianess ((r.data.drop (r.pos + 4 * j)).take 4))) := by
  intro n
  induction n with
  | zero =>
    intro r acc hlen
    rw [readOffsetsLoop]
    rw [dif_neg (by omega)]
    simp
  | succ n ih =>
    intro r acc hlen
    rw [readOffsetsLoop]
    rw [dif_pos (by omega)]
    have hre : r.readExact 4 =
        (.ok ((r.data.drop r.pos).take 4), { data := r.data, pos := r.pos + 4 }) := by
      unfold Reader.readExact
      rw [if_pos (by omega)]
    split
    · rename_i err r2 hr
      rw [hre] at hr
      simp at hr
    · rename_i buf r1 hr
      rw [hre] at hr
      simp only [Prod.mk.injEq, Except.ok.injEq] at hr
      obtain ⟨hbuf, hr1⟩ := hr
      subst hbuf
      subst hr1
      simp only [hseg]
      have key := ih { data := r.data, pos := r.pos + 4 }
        (acc ++ [toU32 s0.endianess ((r.data.drop r.pos).take 4)]) (by simp; omega)
      simp only [] at key
      rw [show r.pos + 4 * (n + 1) = (r.pos + 4) + 4 * n from by ring]
      rw [key]
      simp only [Prod.mk.injEq, true_and]
      rw [List.append_assoc]
      congr 1
      rw [List.range_succ_eq_map, List.map_cons]
      rw [List.singleton_append]
      congr 1
      simp
      intro a ha
      have harith : r.pos + 4 + 4 * a = r.pos + 4 * (a + 1) := by ring
      rw [harith]

/-- ChannelDataIter::set_string_offsets on a channel whose string-offset
range spans n u32 values loads exactly those n values and resets the offset
index, leaving the reader at the end of the range. -/
theorem setStringOffsets_loads (st : IterState) (s0 : Segment) (sOff n : Nat)
    (hseg : st.segments.get? 0 = some s0)
    (hsop : st.channel.stringOffsetPos = some (sOff, sOff + 4 * n))
    (hdata : sOff + 4 * n ≤ st.reader.data.length) :
    setStringOffsets st =
      (.ok (), { st with
        reader := { data := st.reader.data, pos := sOff + 4 * n },
        stringOffsets := (List.range n).map
          (fun j => toU32 s0.endianess ((st.reader.data.drop (sOff + 4 * j)).take 4)),
        stringOffsetIndex := 0 }) := by
  unfold setStringOffsets
  simp only [hsop]
  unfold Reader.seekStart
  have key := readOffsetsLoop_run st.segments s0 hseg n
    { data := st.reader.data, pos := sOff } [] (by simpa using hdata)
  simp only [] at key
  rw [key]
  simp

/-- advance_reader_to_next is the identity when the reader already sits
inside the current chunk of a non-interleaved segment past its raw-data
start: it returns the current segment and changes nothing. -/
theorem advance_in_chunk (fuel : Nat) (st : IterState) (seg : Segment)
    (hseg : st.segments.get? st.currentSegmentIndex = some seg)
    (h1 : st.reader.pos < st.currentPos.2)
    (h2 : st.currentPos.1 ≤ st.reader.pos)
    (h3 : seg.startPos + seg.leadIn.rawDataOffset ≤ st.reader.pos)
    (h4 : st.reader.pos < seg.endPos)
    (h5 : seg.hasInterleavedData = false) :
    advance (fuel + 1) st = some (.ok seg, st) := by
  rw [advance]
  have hcp : currentPositions st st.reader.pos = (.ok (), st) := by
    unfold currentPositions
    rw [if_pos h1]
  simp only [hcp]
  simp only [hseg]
  have hseek : ¬ (st.reader.pos < seg.startPos + seg.leadIn.rawDataOffset ∨
      st.reader.pos < st.currentPos.1) := by
    push_neg
    exact ⟨h3, h2⟩
  rw [if_neg hseek]
  simp only []
  have hend : ¬ seg.endPos ≤ st.reader.pos := by omega
  rw [if_neg hend]
  rw [h5]
  simp only [Bool.false_eq_true, if_false]
  rw [if_pos ⟨h2, h1⟩]

/-- Wrapping u32 subtraction agrees with truncated subtraction when the
subtrahend does not exceed the minuend and both fit in 32 bits. -/
theorem u32sub_eq (o p : Nat) (hop : p ≤ o) (ho : o < U32MOD) :
    u32sub o p = o - p := by
  unfold u32sub U32MOD
  unfold U32MOD at ho
  have hp : p < 4294967296 := by omega
  rw [Nat.mod_eq_of_lt ho, Nat.mod_eq_of_lt hp]
  have heq : o + (4294967296 - p) = 4294967296 + (o - p) := by omega
  rw [heq, Nat.add_mod_left]
  exact Nat.mod_eq_of_lt (by omega)

/-- The String iterator's next(), in an in-chunk state with the offset table
loaded, reads exactly offset[k] − previous bytes at the reader position,
UTF-8-validates them, stores the new previous offset and advances the
offset index by one. -/
theorem nextString_reads (fuel : Nat) (st : IterState) (seg : Segment) (o : Nat)
    (hseg : st.segments.get? st.currentSegmentIndex = some seg)
    (h1 : st.reader.pos < st.currentPos.2)
    (h2 : st.currentPos.1 ≤ st.reader.pos)
    (h3 : seg.startPos + seg.leadIn.rawDataOffset ≤ st.reader.pos)
    (h4 : st.reader.pos < seg.endPos)
    (h5 : seg.hasInterleavedData = false)
    (hidx : st.stringOffsets.get? st.stringOffsetIndex = some o)
    (hprev : st.stringPreviousOffset ≤ o) (ho32 : o < U32MOD)
    (hread : st.reader.pos + (o - st.stringPreviousOffset) ≤ st.reader.data.length) :
    nextString (fuel + 1) st =
      some (utf8Decode ((st.reader.data.drop st.reader.pos).take (o - st.stringPreviousOffset)),
        { st with
          stringPreviousOffset := o,
          stringOffsetIndex := st.stringOffsetIndex + 1,
          reader := { data := st.reader.data,
                      pos := st.reader.pos + (o - st.stringPreviousOffset) } }) := by
  unfold nextString
  rw [advance_in_chunk fuel st seg hseg h1 h2 h3 h4 h5]
  simp only [hidx]
  rw [u32sub_eq o st.stringPreviousOffset hprev ho32]
  have hre : st.reader.readExact (o - st.stringPreviousOffset) =
      (.ok ((st.reader.data.drop st.reader.pos).take (o - st.stringPreviousOffset)),
       { data := st.reader.data, pos := st.reader.pos + (o - st.stringPreviousOffset) }) := by
    unfold Reader.readExact
    rw [if_pos hread]
  simp only [hre]
  cases hu : utf8Decode ((st.reader.data.drop st.reader.pos).take (o - st.stringPreviousOffset)) with
  | none => rfl
  | some s => rfl

/-- Claim C9 (confirmed): for a string channel, set_string_offsets (invoked
at iterator initialization) loads every u32 of the channel's string-offset
range into memory with the offset index reset to 0, and each call to next()
consumes the next offset-table entry: it reads exactly
offset[k] − previous_offset bytes (previous_offset starts at 0), decodes
them as UTF-8 (the value is the validated code-point sequence), records the
new previous offset and advances the offset index to k + 1. -/
theorem c9_string_channel_iter :
    (∀ (st : IterState) (s0 : Segment) (sOff n : Nat),
      st.segments.get? 0 = some s0 →
      st.channel.stringOffsetPos = some (sOff, sOff + 4 * n) →
      sOff + 4 * n ≤ st.reader.data.length →
      setStringOffsets st =
        (.ok (), { st with
          reader := { data := st.reader.data, pos := sOff + 4 * n },
          stringOffsets := (List.range n).map
            (fun j => toU32 s0.endianess ((st.reader.data.drop (sOff + 4 * j)).take 4)),
          stringOffsetIndex := 0 })) ∧
    (∀ (fuel : Nat) (st : IterState) (seg : Segment) (o : Nat),
      st.segments.get? st.currentSegmentIndex = some seg →
      st.reader.pos < st.currentPos.2 →
      st.currentPos.1 ≤ st.reader.pos →
      seg.startPos + seg.leadIn.rawDataOffset ≤ st.reader.pos →
      st.reader.pos < seg.endPos →
      seg.hasInterleavedData = false →
      st.stringOffsets.get? st.stringOffsetIndex = some o →
      st.stringPreviousOffset ≤ o → o < U32MOD →
      st.reader.pos + (o - st.stringPreviousOffset) ≤ st.reader.data.length →
      nextString (fuel + 1) st =
        some (utf8Decode ((st.reader.data.drop st.reader.pos).take
                (o - st.stringPreviousOffset)),
          { st with
            stringPreviousOffset := o,
            stringOffsetIndex := st.stringOffsetIndex + 1,
            reader := { data := st.reader.data,
                        pos := st.reader.pos + (o - st.stringPreviousOffset) } })) :=
  ⟨fun st s0 sOff n hseg hsop hdata => setStringOffsets_loads st s0 sOff n hseg hsop hdata,
   fun fuel st seg o hseg h1 h2 h3 h4 h5 hidx hprev ho32 hread =>
     nextString_reads fuel st seg o hseg h1 h2 h3 h4 h5 hidx hprev ho32 hread⟩

/-- Witness for c9_string_channel_iter: on the concrete string-channel state
(offset table [3, 7) at bytes [2, 10), payload "foo" ++ "bar!" at byte 10),
initialization loads offsets [3, 7] and leaves the reader at 10, and the
first next() reads the 3 bytes "foo" and advances the offset index to 1. -/
theorem c9_string_channel_iter_witness :
    setStringOffsets strIterStart =
      (.ok (), { strIterStart with
                 reader := { data := strData, pos := 10 },
                 stringOffsets := [3, 7], stringOffsetIndex := 0 }) ∧
    nextString 5 strIterLoaded =
      some (some [102, 111, 111],
        { strIterLoaded with
          stringPreviousOffset := 3, stringOffsetIndex := 1,
          reader := { data := strData, pos := 13 } }) := by
  constructor
  · have h := c9_string_channel_iter.1 strIterStart strSegment 2 2
      (by decide) (by decide) (by decide)
    rw [h]
    decide
  · have h := c9_string_channel_iter.2 4 strIterLoaded strSegment 3
      (by decide) (by decide) (by decide) (by decide) (by decide) (by decide)
      (by decide) (by decide) (by decide) (by decide)
    rw [h]
    decide

end Tdms
